import Mathlib

/-! SH4 MMU address translation (core/hw/sh4/modules/mmu.h)

A shallow embedding of the inline functions of `mmu.h`: the fixed-window
classification (`fast_reg_lut`, `mmu_is_translated`), the FAST_MMU variant of
`mmu_instruction_translation`, and the two-slot translation cache of
`mmu_ReadMemNoEx` / `mmu_WriteMemNoEx`.

Conventions
* a `u32` is a `Nat`; theorems assume `va < 2 ^ 32` where the width matters;
* a C function that is only declared in `mmu.h` (`mmu_full_lookup`,
  `mmu_data_translation`, `_vmem_readt`) is a function parameter;
* calls of external functions are recorded in an event trace, so that
  "is not called" is a statement about the trace.
-/

namespace Flycast

/-! ## Constants of `mmu.h` -/

def MMU_TT_IREAD : Nat := 0
def MMU_TT_DWRITE : Nat := 1
def MMU_TT_DREAD : Nat := 2

def MMU_ERROR_NONE : Nat := 0
def MMU_ERROR_TLB_MISS : Nat := 1
def MMU_ERROR_TLB_MHIT : Nat := 2
def MMU_ERROR_PROTECTED : Nat := 3
def MMU_ERROR_FIRSTWRITE : Nat := 4
def MMU_ERROR_BADADDR : Nat := 5
def MMU_ERROR_EXECPROT : Nat := 6

/-- The table `fast_reg_lut[8]`: P0-U0 (four entries), P1, P2, P3, P4. -/
def fast_reg_lut : List Nat := [0, 0, 0, 0, 1, 1, 0, 1]

/-- The 32-bit subtraction `size - 1` of `mmu_is_translated`. -/
def u32_pred (size : Nat) : Nat := (size + 2 ^ 32 - 1) % 2 ^ 32

/-! ## Instruction translation (FAST_MMU variant) -/

/-- Outcome of `mmu_instruction_translation`: the returned status, the value of
the reference parameter `rv` after the call, and the addresses with which
`mmu_full_lookup` was called. -/
structure ITResult where
  status : Nat
  rv : Nat
  lookups : List Nat
deriving DecidableEq, Repr

/-- The function `mmu_instruction_translation(va, rv)` of the FAST_MMU build.
`mmu_full_lookup va rv` stands for `mmu_full_lookup(va, nullptr, rv)` and gives
the status and the value it leaves in `rv`. -/
def mmu_instruction_translation (mmu_full_lookup : Nat → Nat → Nat × Nat)
    (va rv : Nat) : ITResult :=
  if va &&& 1 ≠ 0 then
    { status := MMU_ERROR_BADADDR, rv := rv, lookups := [] }
  else if fast_reg_lut.getD (va >>> 29) 0 ≠ 0 then
    { status := MMU_ERROR_NONE, rv := va, lookups := [] }
  else
    let r := mmu_full_lookup va rv
    { status := r.1, rv := r.2, lookups := [va] }

/-- The function `mmu_is_translated(va, size)`. The flag `fast_mmu` says whether
FAST_MMU is defined; the alignment test is compiled only when it is not. -/
def mmu_is_translated (fast_mmu : Bool) (va size : Nat) : Bool :=
  if !fast_mmu && (va &&& u32_pred size ≠ 0) then true
  else if fast_reg_lut.getD (va >>> 29) 0 ≠ 0 then false
  else if va &&& 0xFC000000 = 0x7C000000 then false
  else true

/-! ## The translation cache of `mmu_ReadMemNoEx` / `mmu_WriteMemNoEx` -/

/-- Modelled from the spec: `PAGE_MASK` is defined in a header that is not part
of `mmu.h`; the translation cache holds page-aligned addresses of 4KB pages, so
the mask of the offset in a page is `0xFFF`. -/
def PAGE_MASK : Nat := 0xFFF

/-- The 32-bit complement `~PAGE_MASK`. -/
def NOT_PAGE_MASK : Nat := 0xFFFFFFFF - PAGE_MASK

/-- The key under which the cache files an address: `adr & ~PAGE_MASK`. -/
def pageOf (adr : Nat) : Nat := adr &&& NOT_PAGE_MASK

/-- A C array `u32 x[2]`. -/
structure Arr2 where
  e0 : Nat
  e1 : Nat
deriving DecidableEq, Repr

/-- Reading `x[0]` or `x[1]`; the source reads with the constant indices only. -/
def Arr2.get (a : Arr2) (i : Nat) : Nat := if i = 0 then a.e0 else a.e1

/-- The assignment `x[i] = v`. An index outside `0..1` is outside the array
(undefined behaviour in C); the model leaves the array as it is there, and
the theorems on insertion assume `i < 2`. -/
def Arr2.set (a : Arr2) (i v : Nat) : Arr2 :=
  if i = 0 then { a with e0 := v } else if i = 1 then { a with e1 := v } else a

/-- The globals `lastVAddr[2]`, `lastPAddr[2]` and `lastIdx`. -/
structure MMUCache where
  lastVAddr : Arr2
  lastPAddr : Arr2
  lastIdx : Nat
deriving DecidableEq, Repr

/-- Calls of functions that `mmu.h` only declares, in the order they are made. -/
inductive Event where
  /-- The call `mmu_data_translation<tt, T>(va, addr)`, with `size = sizeof(T)`. -/
  | translate (tt size va : Nat)
  /-- The call `DoMMUException(addr, mmu_error, access_type)`. -/
  | exception (addr mmu_error access_type : Nat)
  /-- The call `_vmem_readt<T, T>(addr)`. -/
  | vmem_read (size addr : Nat)
  /-- The call `_vmem_writet<T>(addr, data)`. -/
  | vmem_write (size addr data : Nat)
deriving DecidableEq, Repr

/-- The functions the two accessors call and `mmu.h` only declares, over a
memory of type `M`. `mmu_data_translation tt size va` gives the returned status
and the physical address left in the reference parameter. -/
structure Extern (M : Type) where
  mmu_data_translation : Nat → Nat → Nat → Nat × Nat
  vmem_readt : M → Nat → Nat → Nat
  vmem_writet : M → Nat → Nat → Nat → M

/-- Outcome of `mmu_ReadMemNoEx`: the returned pair `(value, fault)`, the cache
and the memory after the call, and the external calls made. -/
structure ReadResult (M : Type) where
  value : Nat
  fault : Bool
  cache : MMUCache
  mem : M
  trace : List Event

/-- Outcome of `mmu_WriteMemNoEx`: the returned `u32`, the cache and the memory
after the call, and the external calls made. -/
structure WriteResult (M : Type) where
  ret : Nat
  cache : MMUCache
  mem : M
  trace : List Event

/-- The function `mmu_ReadMemNoEx<T>(adr)`, with `size = sizeof(T)`. -/
def mmu_ReadMemNoEx {M : Type} (x : Extern M) (size : Nat) (c : MMUCache) (m : M)
    (adr : Nat) : ReadResult M :=
  if c.lastVAddr.get 0 = adr &&& NOT_PAGE_MASK then
    let addr := c.lastPAddr.get 0 ||| (adr &&& PAGE_MASK)
    { value := x.vmem_readt m size addr, fault := false, cache := c, mem := m,
      trace := [Event.vmem_read size addr] }
  else if c.lastVAddr.get 1 = adr &&& NOT_PAGE_MASK then
    let addr := c.lastPAddr.get 1 ||| (adr &&& PAGE_MASK)
    { value := x.vmem_readt m size addr, fault := false, cache := c, mem := m,
      trace := [Event.vmem_read size addr] }
  else
    let r := x.mmu_data_translation MMU_TT_DREAD size adr
    if r.1 ≠ MMU_ERROR_NONE then
      { value := 0, fault := true, cache := c, mem := m,
        trace := [Event.translate MMU_TT_DREAD size adr,
                  Event.exception adr r.1 MMU_TT_DREAD] }
    else
      let addr := r.2
      { value := x.vmem_readt m size addr, fault := false,
        cache := { lastVAddr := c.lastVAddr.set c.lastIdx (adr &&& NOT_PAGE_MASK),
                   lastPAddr := c.lastPAddr.set c.lastIdx (addr &&& NOT_PAGE_MASK),
                   lastIdx := c.lastIdx ^^^ 1 },
        mem := m,
        trace := [Event.translate MMU_TT_DREAD size adr, Event.vmem_read size addr] }

/-- The function `mmu_WriteMemNoEx<T>(adr, data)`, with `size = sizeof(T)`. The
translation it requests on a miss is `mmu_data_translation<MMU_TT_DREAD, T>`,
as in the source; the exception is reported with `MMU_TT_DWRITE`. -/
def mmu_WriteMemNoEx {M : Type} (x : Extern M) (size : Nat) (c : MMUCache) (m : M)
    (adr data : Nat) : WriteResult M :=
  if c.lastVAddr.get 0 = adr &&& NOT_PAGE_MASK then
    let addr := c.lastPAddr.get 0 ||| (adr &&& PAGE_MASK)
    { ret := 0, cache := c, mem := x.vmem_writet m size addr data,
      trace := [Event.vmem_write size addr data] }
  else if c.lastVAddr.get 1 = adr &&& NOT_PAGE_MASK then
    let addr := c.lastPAddr.get 1 ||| (adr &&& PAGE_MASK)
    { ret := 0, cache := c, mem := x.vmem_writet m size addr data,
      trace := [Event.vmem_write size addr data] }
  else
    let r := x.mmu_data_translation MMU_TT_DREAD size adr
    if r.1 ≠ MMU_ERROR_NONE then
      { ret := 1, cache := c, mem := m,
        trace := [Event.translate MMU_TT_DREAD size adr,
                  Event.exception adr r.1 MMU_TT_DWRITE] }
    else
      let addr := r.2
      { ret := 0,
        cache := { lastVAddr := c.lastVAddr.set c.lastIdx (adr &&& NOT_PAGE_MASK),
                   lastPAddr := c.lastPAddr.set c.lastIdx (addr &&& NOT_PAGE_MASK),
                   lastIdx := c.lastIdx ^^^ 1 },
        mem := x.vmem_writet m size addr data,
        trace := [Event.translate MMU_TT_DREAD size adr, Event.vmem_write size addr data] }

/-! ## Sequences of accesses -/

/-- A data access issued by the CPU core: a call of `mmu_ReadMemNoEx<T>(adr)` or
of `mmu_WriteMemNoEx<T>(adr, data)`. -/
inductive Access where
  | read (size adr : Nat)
  | write (size adr data : Nat)
deriving DecidableEq, Repr

/-- The address of an access. -/
def Access.adr : Access → Nat
  | Access.read _ adr => adr
  | Access.write _ adr _ => adr

/-- The width of an access. -/
def Access.size : Access → Nat
  | Access.read size _ => size
  | Access.write size _ _ => size

/-- The memory call an access makes once its address is resolved to `addr`. -/
def Access.memEvent : Access → Nat → Event
  | Access.read size _, addr => Event.vmem_read size addr
  | Access.write size _ data, addr => Event.vmem_write size addr data

/-- What an access leaves behind: whether it was resolved (`(value, false)` for
a read, `0` for a write), the cache, the memory and the external calls. -/
structure Outcome (M : Type) where
  ok : Bool
  cache : MMUCache
  mem : M
  trace : List Event

/-- Performs one access through the accessor of its kind. -/
def Access.run {M : Type} (x : Extern M) (c : MMUCache) (m : M) : Access → Outcome M
  | Access.read size adr =>
    let r := mmu_ReadMemNoEx x size c m adr
    { ok := !r.fault, cache := r.cache, mem := r.mem, trace := r.trace }
  | Access.write size adr data =>
    let r := mmu_WriteMemNoEx x size c m adr data
    { ok := r.ret == 0, cache := r.cache, mem := r.mem, trace := r.trace }

/-- Performs the accesses of a list in order; gives the last cache and memory. -/
def runAll {M : Type} (x : Extern M) : MMUCache → M → List Access → MMUCache × M
  | c, m, [] => (c, m)
  | c, m, a :: l => runAll x (a.run x c m).cache (a.run x c m).mem l

/-- Neither slot of the cache holds the page of `adr`: the access takes the
`else` branch of the accessor. -/
def isMiss (c : MMUCache) (adr : Nat) : Bool :=
  c.lastVAddr.get 0 ≠ pageOf adr && c.lastVAddr.get 1 ≠ pageOf adr

/-- The physical address handed to the memory module, if the trace has one. -/
def Event.physAddr : Event → Option Nat
  | Event.vmem_read _ addr => some addr
  | Event.vmem_write _ addr _ => some addr
  | _ => none

/-- The first physical address a trace hands to the memory module. -/
def usedAddr (t : List Event) : Option Nat := t.findSome? Event.physAddr

/-! ## The data translation of the specification

`mmu_data_translation` is declared in `mmu.h` and defined elsewhere. The
theorems on the accessors take it as a parameter; the definitions below give
one, after §3 and §4.3 of the specification, for the concrete scenarios. -/

/-- Modelled from the spec: the TLBEntry of §3 (the register types behind
`TLB_Entry` are declared outside `mmu.h`). `vpn` and `ppn` are page numbers in
units of the page size of the entry, as in the scenario of §8 (`VPN=0x12345`,
`PPN=0x00ABC`, 4KB, for the address `0x12345000` and its image `0x00ABC000`). -/
structure TLBEntry where
  vpn : Nat
  asid : Nat
  shared : Bool
  sizeClass : Nat
  ppn : Nat
  valid : Bool
  writable : Bool
  userAccessible : Bool
  dirty : Bool
deriving DecidableEq, Repr

/-- Modelled from the spec: the bytes of a page of size class 0..3 (1KB, 4KB,
64KB, 1MB), the sizes named by the comments of `mmu_mask`. -/
def pageSize (sizeClass : Nat) : Nat := [1024, 4096, 65536, 1048576].getD sizeClass 1024

/-- Modelled from the spec: the MMU state the translator reads: the unified
TLB, the current address-space id, the mode flag and the privilege level. -/
structure MMUConfig where
  utlb : List TLBEntry
  asid : Nat
  enabled : Bool
  privileged : Bool
deriving DecidableEq, Repr

/-- Modelled from the spec: the AddressMatcher of §4.1, on valid entries: the
page number of `va` for the entry's page size is the stored one, and the
address-space ids agree unless the entry is shared. -/
def addressMatch (va asid : Nat) (e : TLBEntry) : Bool :=
  e.valid && (va / pageSize e.sizeClass == e.vpn) && (e.shared || e.asid == asid)

/-- Modelled from the spec: the permission check of §4.3 step 6 on data paths. -/
def checkPermission (cfg : MMUConfig) (tt : Nat) (e : TLBEntry) : Nat :=
  if !cfg.privileged && !e.userAccessible then MMU_ERROR_PROTECTED
  else if tt = MMU_TT_DWRITE then
    if !e.writable then MMU_ERROR_PROTECTED
    else if !e.dirty then MMU_ERROR_FIRSTWRITE
    else MMU_ERROR_NONE
  else MMU_ERROR_NONE

/-- Modelled from the spec: `mmu_data_translation<tt, T>(va, rv)` after §4.3,
steps 1, 2, 3, 5, 6 and 7 for the kinds DataRead and DataWrite over the UTLB:
alignment, fixed-window bypass, global disable, walk collecting all matches,
permission check, composition. Step 4 (store queue) has no rule in the
specification and is left out; in the order of §4.3 its window is already
answered by step 2. The second component is the physical address, `0` when the
status is not `MMU_ERROR_NONE`. -/
def translate (cfg : MMUConfig) (tt size va : Nat) : Nat × Nat :=
  if va % size ≠ 0 then (MMU_ERROR_BADADDR, 0)
  else if mmu_is_translated true va size = false then (MMU_ERROR_NONE, va)
  else if !cfg.enabled then (MMU_ERROR_NONE, va)
  else
    match cfg.utlb.filter (addressMatch va cfg.asid) with
    | [] => (MMU_ERROR_TLB_MISS, 0)
    | [e] =>
      if checkPermission cfg tt e ≠ MMU_ERROR_NONE then (checkPermission cfg tt e, 0)
      else (MMU_ERROR_NONE, e.ppn * pageSize e.sizeClass + va % pageSize e.sizeClass)
    | _ => (MMU_ERROR_TLB_MHIT, 0)

/-- A memory for the scenarios: the writes made, the latest first. -/
abbrev WriteLog : Type := List (Nat × Nat)

/-- The external functions of the scenarios: the translation of the
specification over `cfg` and a memory that logs its writes. -/
def scenarioExtern (cfg : MMUConfig) : Extern WriteLog where
  mmu_data_translation := translate cfg
  vmem_readt := fun m _ addr => (m.lookup addr).getD 0
  vmem_writet := fun m _ addr data => (addr, data) :: m

/-- The scenario of §8: `UTLB[0] := {VPN=0x12345, ASID=0, size=4KB, PPN=0x00ABC,
writable=true, dirty=false}`, MMU enabled. -/
def scenario4K : MMUConfig where
  utlb := [{ vpn := 0x12345, asid := 0, shared := false, sizeClass := 1, ppn := 0x00ABC,
             valid := true, writable := true, userAccessible := true, dirty := false }]
  asid := 0
  enabled := true
  privileged := true

/-- A 1KB page: the virtual page at `0x12345400` mapped to the physical page at
`0x00ABC800`, MMU enabled. -/
def scenario1K : MMUConfig where
  utlb := [{ vpn := 0x48D15, asid := 0, shared := false, sizeClass := 0, ppn := 0x2AF2,
             valid := true, writable := true, userAccessible := true, dirty := true }]
  asid := 0
  enabled := true
  privileged := true

/-- A cache in which no slot matches any address: `0xFFFFFFFF` is not page
aligned. -/
def emptyCache : MMUCache where
  lastVAddr := { e0 := 0xFFFFFFFF, e1 := 0xFFFFFFFF }
  lastPAddr := { e0 := 0, e1 := 0 }
  lastIdx := 0

/-- A translation maps the pages of `S` bytes offset-preservingly: a translated
address keeps its offset in the page, and two addresses of one virtual page
that both translate lie in one physical page. -/
def OffsetPreserving (xl : Nat → Nat → Nat → Nat × Nat) (S : Nat) : Prop :=
  ∀ tt size va tt' size' va', va < 2 ^ 32 → va' < 2 ^ 32 →
    (xl tt size va).1 = MMU_ERROR_NONE → (xl tt' size' va').1 = MMU_ERROR_NONE →
      (xl tt size va).2 % S = va % S ∧
        (va / S = va' / S → (xl tt size va).2 / S = (xl tt' size' va').2 / S)

/-- Every slot of the cache agrees with the translation `xl`: an address filed
under a slot that `xl` translates is translated to the cached physical page
combined with its offset in the page. -/
def Coherent (xl : Nat → Nat → Nat → Nat × Nat) (c : MMUCache) : Prop :=
  ∀ i adr tt size, i < 2 → adr < 2 ^ 32 → c.lastVAddr.get i = pageOf adr →
    (xl tt size adr).1 = MMU_ERROR_NONE →
      (xl tt size adr).2 = c.lastPAddr.get i ||| (adr &&& PAGE_MASK)

/-! ## Mode flag, page masks and the TLB walk -/

/-- The function `mmu_enabled()`: `config::FullMMU && CCN_MMUCR.AT == 1`. The
option and the register field live outside `mmu.h` and are arguments here. -/
def mmu_enabled (FullMMU : Bool) (AT : Nat) : Bool := FullMMU && AT == 1

/-- The table `mmu_mask[4]`: `((0xFFFFFFFF) >> n) << n` in 32-bit arithmetic for
`n` = 10, 12, 16, 20. -/
def mmu_mask : List Nat :=
  [((0xFFFFFFFF >>> 10) <<< 10) % 2 ^ 32,
   ((0xFFFFFFFF >>> 12) <<< 12) % 2 ^ 32,
   ((0xFFFFFFFF >>> 16) <<< 16) % 2 ^ 32,
   ((0xFFFFFFFF >>> 20) <<< 20) % 2 ^ 32]

/-- The 32-bit complement `~x`. -/
def u32_not (x : Nat) : Nat := 2 ^ 32 - 1 - x % 2 ^ 32

/-- Modelled from the spec: `mmu_full_lookup(va, entry, rv)`, declared in `mmu.h`
and defined elsewhere, after §4.3 step 5 and 7 on the UTLB: every entry is
tried and all matches are collected; none is a TLB miss, two or more a
multi-hit, exactly one gives the entry and the composed address. The result is
the status, the entry found and the value left in `rv`. -/
def mmu_full_lookup (utlb : List TLBEntry) (asid va rv : Nat) :
    Nat × Option TLBEntry × Nat :=
  match utlb.filter (addressMatch va asid) with
  | [] => (MMU_ERROR_TLB_MISS, none, rv)
  | [e] => (MMU_ERROR_NONE, some e,
      e.ppn * pageSize e.sizeClass + va % pageSize e.sizeClass)
  | _ => (MMU_ERROR_TLB_MHIT, none, rv)

/-- Modelled from the spec: `mmu_instruction_lookup(va, entry, rv)`, declared in
`mmu.h` and defined elsewhere, after §4.3 step 5: the walk of the ITLB, and on
zero matches the secondary walk of the UTLB with the same address. -/
def mmu_instruction_lookup (itlb utlb : List TLBEntry) (asid va rv : Nat) :
    Nat × Option TLBEntry × Nat :=
  match itlb.filter (addressMatch va asid) with
  | [] => mmu_full_lookup utlb asid va rv
  | [e] => (MMU_ERROR_NONE, some e,
      e.ppn * pageSize e.sizeClass + va % pageSize e.sizeClass)
  | _ => (MMU_ERROR_TLB_MHIT, none, rv)

/-- Two entries that overlap at `0x12345000`: the 4KB page of the scenario of §8
and a 64KB page `0x12340000..0x1234FFFF` mapped to `0x00AB0000`. -/
def scenarioOverlap : MMUConfig where
  utlb := [{ vpn := 0x1234, asid := 0, shared := false, sizeClass := 2, ppn := 0x00AB,
             valid := true, writable := true, userAccessible := true, dirty := true },
           { vpn := 0x12345, asid := 0, shared := false, sizeClass := 1, ppn := 0x00ABC,
             valid := true, writable := true, userAccessible := true, dirty := false }]
  asid := 0
  enabled := true
  privileged := true

/-- External functions over a machine made of a memory and a TLB table: the
translation of the specification over `cfg`, and a memory write that logs the
write and leaves the table alone. -/
def tableExtern (cfg : MMUConfig) : Extern (WriteLog × List TLBEntry) where
  mmu_data_translation := translate cfg
  vmem_readt := fun m _ addr => (m.1.lookup addr).getD 0
  vmem_writet := fun m _ addr data => ((addr, data) :: m.1, m.2)

/-- No address matches both cache slots. -/
def NoDoubleMatch (c : MMUCache) : Prop :=
  ∀ adr, ¬ (c.lastVAddr.get 0 = pageOf adr ∧ c.lastVAddr.get 1 = pageOf adr)

/-! ## `core/rend/gui.cpp`: device names, direction keys, mouse buttons -/

/-- The enumeration `MapleDeviceType`, declared in a header outside `gui.cpp`:
the enumerators that `gui.cpp` names, and `other n` for any further value of
the type. -/
inductive MapleDeviceType where
  | MDT_SegaController
  | MDT_SegaVMU
  | MDT_Microphone
  | MDT_PurupuruPack
  | MDT_AsciiStick
  | MDT_Keyboard
  | MDT_Mouse
  | MDT_LightGun
  | MDT_TwinStick
  | MDT_None
  | MDT_MaracasController
  | MDT_FishingController
  | MDT_PopnMusicController
  | MDT_RacingController
  | MDT_DenshaDeGoController
  | MDT_Dreameye
  | other (n : Nat)
deriving DecidableEq, Repr

/-- The array `maple_device_types[]`; its thirteenth entry is commented out in
the source. -/
def maple_device_types : List String :=
  ["None",
   "Sega Controller",
   "Light Gun",
   "Keyboard",
   "Mouse",
   "Twin Stick",
   "Arcade/Ascii Stick",
   "Maracas Controller",
   "Fishing Controller",
   "Pop\x27n Music controller",
   "Racing Controller",
   "Densha de Go! Controller"]

/-- The index at which `maple_device_name(type)` reads `maple_device_types`. -/
def maple_device_name_index : MapleDeviceType → Nat
  | MapleDeviceType.MDT_SegaController => 1
  | MapleDeviceType.MDT_LightGun => 2
  | MapleDeviceType.MDT_Keyboard => 3
  | MapleDeviceType.MDT_Mouse => 4
  | MapleDeviceType.MDT_TwinStick => 5
  | MapleDeviceType.MDT_AsciiStick => 6
  | MapleDeviceType.MDT_MaracasController => 7
  | MapleDeviceType.MDT_FishingController => 8
  | MapleDeviceType.MDT_PopnMusicController => 9
  | MapleDeviceType.MDT_RacingController => 10
  | MapleDeviceType.MDT_DenshaDeGoController => 11
  | MapleDeviceType.MDT_Dreameye => 0
  | MapleDeviceType.MDT_None => 0
  | _ => 0

/-- The function `maple_device_name(type)`: the array element read, `none` if
the read were outside the array. -/
def maple_device_name (type : MapleDeviceType) : Option String :=
  maple_device_types[maple_device_name_index type]?

/-- The function `maple_device_type_from_index(idx)`, with `idx` an `int`. -/
def maple_device_type_from_index (idx : Int) : MapleDeviceType :=
  if idx = 1 then MapleDeviceType.MDT_SegaController
  else if idx = 2 then MapleDeviceType.MDT_LightGun
  else if idx = 3 then MapleDeviceType.MDT_Keyboard
  else if idx = 4 then MapleDeviceType.MDT_Mouse
  else if idx = 5 then MapleDeviceType.MDT_TwinStick
  else if idx = 6 then MapleDeviceType.MDT_AsciiStick
  else if idx = 7 then MapleDeviceType.MDT_MaracasController
  else if idx = 8 then MapleDeviceType.MDT_FishingController
  else if idx = 9 then MapleDeviceType.MDT_PopnMusicController
  else if idx = 10 then MapleDeviceType.MDT_RacingController
  else if idx = 11 then MapleDeviceType.MDT_DenshaDeGoController
  else if idx = 12 then MapleDeviceType.MDT_Dreameye
  else MapleDeviceType.MDT_None

/-- The enumeration `DreamcastKey`, declared in a header outside `gui.cpp`: the
twenty directional keys and `EMU_BTN_NONE`, which `getOppositeDirectionKey`
names, and `other n` for any further key (`DC_BTN_A`, `EMU_BTN_MENU`, ...). -/
inductive DreamcastKey where
  | DC_DPAD_UP | DC_DPAD_DOWN | DC_DPAD_LEFT | DC_DPAD_RIGHT
  | DC_DPAD2_UP | DC_DPAD2_DOWN | DC_DPAD2_LEFT | DC_DPAD2_RIGHT
  | DC_AXIS_UP | DC_AXIS_DOWN | DC_AXIS_LEFT | DC_AXIS_RIGHT
  | DC_AXIS2_UP | DC_AXIS2_DOWN | DC_AXIS2_LEFT | DC_AXIS2_RIGHT
  | DC_AXIS3_UP | DC_AXIS3_DOWN | DC_AXIS3_LEFT | DC_AXIS3_RIGHT
  | EMU_BTN_NONE
  | other (n : Nat)
deriving DecidableEq, Repr

/-- The function `getOppositeDirectionKey(key)`. -/
def getOppositeDirectionKey : DreamcastKey → DreamcastKey
  | DreamcastKey.DC_DPAD_UP => DreamcastKey.DC_DPAD_DOWN
  | DreamcastKey.DC_DPAD_DOWN => DreamcastKey.DC_DPAD_UP
  | DreamcastKey.DC_DPAD_LEFT => DreamcastKey.DC_DPAD_RIGHT
  | DreamcastKey.DC_DPAD_RIGHT => DreamcastKey.DC_DPAD_LEFT
  | DreamcastKey.DC_DPAD2_UP => DreamcastKey.DC_DPAD2_DOWN
  | DreamcastKey.DC_DPAD2_DOWN => DreamcastKey.DC_DPAD2_UP
  | DreamcastKey.DC_DPAD2_LEFT => DreamcastKey.DC_DPAD2_RIGHT
  | DreamcastKey.DC_DPAD2_RIGHT => DreamcastKey.DC_DPAD2_LEFT
  | DreamcastKey.DC_AXIS_UP => DreamcastKey.DC_AXIS_DOWN
  | DreamcastKey.DC_AXIS_DOWN => DreamcastKey.DC_AXIS_UP
  | DreamcastKey.DC_AXIS_LEFT => DreamcastKey.DC_AXIS_RIGHT
  | DreamcastKey.DC_AXIS_RIGHT => DreamcastKey.DC_AXIS_LEFT
  | DreamcastKey.DC_AXIS2_UP => DreamcastKey.DC_AXIS2_DOWN
  | DreamcastKey.DC_AXIS2_DOWN => DreamcastKey.DC_AXIS2_UP
  | DreamcastKey.DC_AXIS2_LEFT => DreamcastKey.DC_AXIS2_RIGHT
  | DreamcastKey.DC_AXIS2_RIGHT => DreamcastKey.DC_AXIS2_LEFT
  | DreamcastKey.DC_AXIS3_UP => DreamcastKey.DC_AXIS3_DOWN
  | DreamcastKey.DC_AXIS3_DOWN => DreamcastKey.DC_AXIS3_UP
  | DreamcastKey.DC_AXIS3_LEFT => DreamcastKey.DC_AXIS3_RIGHT
  | DreamcastKey.DC_AXIS3_RIGHT => DreamcastKey.DC_AXIS3_LEFT
  | _ => DreamcastKey.EMU_BTN_NONE

/-- The five groups of directional keys, by the prefix of the enumerator. -/
inductive KeyGroup where
  | DPAD | DPAD2 | AXIS | AXIS2 | AXIS3
deriving DecidableEq, Repr

/-- The group of a directional key; `none` for every other key. -/
def directionGroup : DreamcastKey → Option KeyGroup
  | DreamcastKey.DC_DPAD_UP | DreamcastKey.DC_DPAD_DOWN
  | DreamcastKey.DC_DPAD_LEFT | DreamcastKey.DC_DPAD_RIGHT => some KeyGroup.DPAD
  | DreamcastKey.DC_DPAD2_UP | DreamcastKey.DC_DPAD2_DOWN
  | DreamcastKey.DC_DPAD2_LEFT | DreamcastKey.DC_DPAD2_RIGHT => some KeyGroup.DPAD2
  | DreamcastKey.DC_AXIS_UP | DreamcastKey.DC_AXIS_DOWN
  | DreamcastKey.DC_AXIS_LEFT | DreamcastKey.DC_AXIS_RIGHT => some KeyGroup.AXIS
  | DreamcastKey.DC_AXIS2_UP | DreamcastKey.DC_AXIS2_DOWN
  | DreamcastKey.DC_AXIS2_LEFT | DreamcastKey.DC_AXIS2_RIGHT => some KeyGroup.AXIS2
  | DreamcastKey.DC_AXIS3_UP | DreamcastKey.DC_AXIS3_DOWN
  | DreamcastKey.DC_AXIS3_LEFT | DreamcastKey.DC_AXIS3_RIGHT => some KeyGroup.AXIS3
  | _ => none

/-- The twenty directional keys. -/
def directionKeys : List DreamcastKey :=
  [DreamcastKey.DC_DPAD_UP, DreamcastKey.DC_DPAD_DOWN, DreamcastKey.DC_DPAD_LEFT,
   DreamcastKey.DC_DPAD_RIGHT, DreamcastKey.DC_DPAD2_UP, DreamcastKey.DC_DPAD2_DOWN,
   DreamcastKey.DC_DPAD2_LEFT, DreamcastKey.DC_DPAD2_RIGHT, DreamcastKey.DC_AXIS_UP,
   DreamcastKey.DC_AXIS_DOWN, DreamcastKey.DC_AXIS_LEFT, DreamcastKey.DC_AXIS_RIGHT,
   DreamcastKey.DC_AXIS2_UP, DreamcastKey.DC_AXIS2_DOWN, DreamcastKey.DC_AXIS2_LEFT,
   DreamcastKey.DC_AXIS2_RIGHT, DreamcastKey.DC_AXIS3_UP, DreamcastKey.DC_AXIS3_DOWN,
   DreamcastKey.DC_AXIS3_LEFT, DreamcastKey.DC_AXIS3_RIGHT]

/-- The function `gui_set_mouse_button(button, pressed)` on the `u32`
`mouseButtons`: `mouseButtons |= 1 << button` or `mouseButtons &= ~(1 <<
button)`, the `int` operand converted to 32 bits. The shift is defined for
`button` in `0..31`. -/
def gui_set_mouse_button (mouseButtons button : Nat) (pressed : Bool) : Nat :=
  if pressed then mouseButtons ||| ((1 <<< button) % 2 ^ 32)
  else mouseButtons &&& u32_not ((1 <<< button) % 2 ^ 32)

/-! ## `core/rend/gui.cpp`: the state of the user interface -/

/-- The enumeration `GuiState`, declared in a header outside `gui.cpp`: the
eleven states that `gui.cpp` names. -/
inductive GuiState where
  | Closed | Commands | Settings | Main | Onboarding | VJoyEdit | VJoyEditCommands
  | SelectDisk | Loading | NetworkStart | Cheats
deriving DecidableEq, Repr

/-- Calls of functions that `gui.cpp` does not define, in the order they are
made. -/
inductive GuiEvent where
  | HideOSD
  | emu_stop
  | emu_start
  | emu_unloadGame
  | dc_loadstate (slot : Int)
  | dc_savestate (slot : Int)
  | chat_toggle
  | gameLoader_cancel
  | load_system_mappings
  | reset_vmus
  | error_log (message : String)
  | dc_exit
deriving DecidableEq, Repr

/-- What the functions read and do not write: the settings, `commandLineStart`,
the answer of `ggpo::active()`, and for each call made inside a `try` block the
message of the `FlycastException` it throws, if it throws. -/
structure GuiEnv where
  naomi_slave : Bool
  naomi_multiboard : Bool
  network_online : Bool
  content_path : String
  savestateSlot : Int
  commandLineStart : Bool
  ggpo_active : Bool
  stop_throws : Option String
  loadstate_throws : Option String
  savestate_throws : Option String
  start_throws : Option String
deriving DecidableEq, Repr

/-- The variables the functions write: `gui_state`, the two capture flags of
ImGui that `gui_setState` resets, `error_msg`, the external calls made so far,
and the exception that left the function uncaught, if any. -/
structure Gui where
  gui_state : GuiState
  wantCaptureKeyboard : Bool
  wantCaptureMouse : Bool
  error_msg : String
  trace : List GuiEvent
  uncaught : Option String
deriving DecidableEq, Repr

/-- The function `gui_setState(newState)`. -/
def gui_setState (g : Gui) (newState : GuiState) : Gui :=
  if newState = GuiState.Closed then
    { g with gui_state := newState, wantCaptureKeyboard := false,
             wantCaptureMouse := false }
  else
    { g with gui_state := newState }

/-- Records an external call. -/
def Gui.call (g : Gui) (e : GuiEvent) : Gui := { g with trace := g.trace ++ [e] }

/-- The function `gui_error(what)`. -/
def gui_error (g : Gui) (what : String) : Gui := { g with error_msg := what }

/-- The function `gui_stop_game(message)`. -/
def gui_stop_game (env : GuiEnv) (g : Gui) (message : String) : Gui :=
  if !env.commandLineStart then
    let g1 := gui_setState (g.call GuiEvent.emu_unloadGame) GuiState.Main
    let g2 := g1.call GuiEvent.reset_vmus
    if !message.isEmpty then gui_error g2 ("Flycast has stopped.\n\n" ++ message) else g2
  else
    let g1 := if !message.isEmpty then g.call (GuiEvent.error_log message) else g
    g1.call GuiEvent.dc_exit

/-- The function `savestateAllowed()`. -/
def savestateAllowed (env : GuiEnv) : Bool :=
  !env.content_path.isEmpty && !env.network_online && !env.naomi_multiboard

/-- The function `gui_open_settings()`. The lock on `guiMutex` is not modelled. -/
def gui_open_settings (env : GuiEnv) (g : Gui) : Gui :=
  if g.gui_state = GuiState.Closed ∧ env.naomi_slave = false then
    if !env.ggpo_active then
      let g1 := (g.call GuiEvent.HideOSD).call GuiEvent.emu_stop
      match env.stop_throws with
      | none => gui_setState g1 GuiState.Commands
      | some what => gui_stop_game env g1 what
    else
      g.call GuiEvent.chat_toggle
  else if g.gui_state = GuiState.VJoyEdit then
    gui_setState g GuiState.VJoyEditCommands
  else if g.gui_state = GuiState.Loading then
    g.call GuiEvent.gameLoader_cancel
  else if g.gui_state = GuiState.Commands then
    let g1 := ((gui_setState g GuiState.Closed).call GuiEvent.load_system_mappings).call
      GuiEvent.emu_start
    { g1 with uncaught := env.start_throws }
  else g

/-- The `try` block shared by `gui_loadState` and `gui_saveState`: `emu.stop()`,
the state call, `emu.start()`, and `gui_stop_game(e.what())` on the first
exception. -/
def stateBlock (env : GuiEnv) (g : Gui) (stateCall : GuiEvent)
    (state_throws : Option String) : Gui :=
  let g1 := g.call GuiEvent.emu_stop
  match env.stop_throws with
  | some what => gui_stop_game env g1 what
  | none =>
    let g2 := g1.call stateCall
    match state_throws with
    | some what => gui_stop_game env g2 what
    | none =>
      let g3 := g2.call GuiEvent.emu_start
      match env.start_throws with
      | some what => gui_stop_game env g3 what
      | none => g3

/-- The function `gui_loadState()`. The lock on `guiMutex` is not modelled. -/
def gui_loadState (env : GuiEnv) (g : Gui) : Gui :=
  if g.gui_state = GuiState.Closed ∧ savestateAllowed env = true then
    stateBlock env g (GuiEvent.dc_loadstate env.savestateSlot) env.loadstate_throws
  else g

/-- The function `gui_saveState()`. The lock on `guiMutex` is not modelled. -/
def gui_saveState (env : GuiEnv) (g : Gui) : Gui :=
  if g.gui_state = GuiState.Closed ∧ savestateAllowed env = true then
    stateBlock env g (GuiEvent.dc_savestate env.savestateSlot) env.savestate_throws
  else g

/-- A session for the examples: a game is loaded and running with the interface
closed. -/
def guiClosed : Gui where
  gui_state := GuiState.Closed
  wantCaptureKeyboard := true
  wantCaptureMouse := true
  error_msg := ""
  trace := []
  uncaught := none

/-- Settings for the examples: a local Dreamcast game, nothing throws. -/
def guiEnvLocal : GuiEnv where
  naomi_slave := false
  naomi_multiboard := false
  network_online := false
  content_path := "game.gdi"
  savestateSlot := 0
  commandLineStart := false
  ggpo_active := false
  stop_throws := none
  loadstate_throws := none
  savestate_throws := none
  start_throws := none

/-- Settings for the examples: the same game in an online session. -/
def guiEnvOnline : GuiEnv := { guiEnvLocal with network_online := true }

/-! ## Arithmetic of the 32-bit masks -/

theorem testBit_high_false {a i : Nat} (ha : a < 2 ^ 32) (hi : 32 ≤ i) :
    a.testBit i = false :=
  Nat.testBit_lt_two_pow (lt_of_lt_of_le ha (Nat.pow_le_pow_right (by decide) hi))

/-- Masking a 32-bit value with the complement of `2 ^ k - 1` rounds it down to
a multiple of `2 ^ k`. -/
theorem land_high_mask (k a : Nat) (hk : k ≤ 32) (ha : a < 2 ^ 32) :
    a &&& (2 ^ 32 - 2 ^ k) = a / 2 ^ k * 2 ^ k := by
  have hm : 2 ^ 32 - 2 ^ k = 2 ^ k * (2 ^ (32 - k) - 1) := by
    have h1 : (2:Nat) ^ 32 = 2 ^ k * 2 ^ (32 - k) := by
      rw [← Nat.pow_add]; congr 1; omega
    rw [Nat.mul_sub, ← h1, Nat.mul_one]
  apply Nat.eq_of_testBit_eq
  intro i
  rw [Nat.testBit_and, hm, Nat.mul_comm (a / 2 ^ k), Nat.testBit_mul_pow_two,
    Nat.testBit_mul_pow_two, Nat.testBit_two_pow_sub_one, ← Nat.shiftRight_eq_div_pow,
    Nat.testBit_shiftRight]
  by_cases h1 : k ≤ i
  · have e : k + (i - k) = i := by omega
    rw [e]
    by_cases h2 : i < 32
    · have : i - k < 32 - k := by omega
      simp [h1, this]
    · have : ¬ (i - k < 32 - k) := by omega
      simp [h1, this, testBit_high_false ha (by omega : 32 ≤ i)]
  · simp [h1]

theorem land_region (a : Nat) (ha : a < 2 ^ 32) :
    a &&& 0xFC000000 = a / 67108864 * 67108864 := by
  have := land_high_mask 26 a (by decide) ha
  norm_num at this ⊢
  exact this

theorem land_not_page_mask (a : Nat) (ha : a < 2 ^ 32) :
    a &&& NOT_PAGE_MASK = a / 4096 * 4096 := by
  have := land_high_mask 12 a (by decide) ha
  norm_num [NOT_PAGE_MASK, PAGE_MASK] at this ⊢
  exact this

theorem land_page_mask (a : Nat) : a &&& PAGE_MASK = a % 4096 := by
  have := Nat.and_pow_two_sub_one_eq_mod a 12
  norm_num [PAGE_MASK] at this ⊢
  exact this

theorem shift29 (va : Nat) : va >>> 29 = va / 536870912 := by
  rw [Nat.shiftRight_eq_div_pow]

/-- The table entry read for `va`, by the region `va >> 29`. -/
theorem fast_reg_lut_ne_zero (va : Nat) (h32 : va < 2 ^ 32) :
    fast_reg_lut.getD (va >>> 29) 0 ≠ 0 ↔
      (va >>> 29 = 4 ∨ va >>> 29 = 5 ∨ va >>> 29 = 7) := by
  rw [shift29]
  have hlt : va / 536870912 < 8 := by omega
  generalize va / 536870912 = k at hlt
  interval_cases k <;> simp [fast_reg_lut]

theorem region_range (va : Nat) (h32 : va < 2 ^ 32) :
    (va >>> 29 = 4 ∨ va >>> 29 = 5 ∨ va >>> 29 = 7) ↔
      ((0x80000000 ≤ va ∧ va ≤ 0xBFFFFFFF) ∨ (0xE0000000 ≤ va ∧ va ≤ 0xFFFFFFFF)) := by
  rw [shift29]
  omega

theorem onchip_range (va : Nat) (h32 : va < 2 ^ 32) :
    va &&& 0xFC000000 = 0x7C000000 ↔ (0x7C000000 ≤ va ∧ va ≤ 0x7FFFFFFF) := by
  rw [land_region va h32]
  omega

/-! ## Fixed windows and instruction translation -/

/-- C1: for every 32-bit `va` with bit 0 clear whose region `va >> 29` is 4, 5 or
7 (that is, `va` in `0x80000000..0xBFFFFFFF` or `0xE0000000..0xFFFFFFFF`),
`mmu_instruction_translation` returns `MMU_ERROR_NONE`, sets `rv = va` and does
not call `mmu_full_lookup`, whatever `mmu_full_lookup` would return. -/
theorem mmu_instruction_translation_fixed_window
    (mmu_full_lookup : Nat → Nat → Nat × Nat) (va rv : Nat) (h32 : va < 2 ^ 32)
    (hal : va &&& 1 = 0)
    (hwin : va >>> 29 = 4 ∨ va >>> 29 = 5 ∨ va >>> 29 = 7) :
    ((0x80000000 ≤ va ∧ va ≤ 0xBFFFFFFF) ∨ (0xE0000000 ≤ va ∧ va ≤ 0xFFFFFFFF)) ∧
    mmu_instruction_translation mmu_full_lookup va rv =
      { status := MMU_ERROR_NONE, rv := va, lookups := [] } := by
  refine ⟨(region_range va h32).1 hwin, ?_⟩
  have hl := (fast_reg_lut_ne_zero va h32).2 hwin
  simp only [mmu_instruction_translation, hal, ne_eq, not_true_eq_false, if_false, hl,
    not_false_eq_true, if_true]

theorem mmu_instruction_translation_fixed_window_witness :
    ((0x80000000 ≤ 0xE0000000 ∧ 0xE0000000 ≤ 0xBFFFFFFF) ∨
      (0xE0000000 ≤ 0xE0000000 ∧ 0xE0000000 ≤ 0xFFFFFFFF)) ∧
    mmu_instruction_translation (fun _ _ => (MMU_ERROR_TLB_MISS, 0)) 0xE0000000 7 =
      { status := MMU_ERROR_NONE, rv := 0xE0000000, lookups := [] } :=
  mmu_instruction_translation_fixed_window (fun _ _ => (MMU_ERROR_TLB_MISS, 0))
    0xE0000000 7 (by norm_num) (by decide) (by decide)

theorem mmu_instruction_translation_lookup (mmu_full_lookup : Nat → Nat → Nat × Nat)
    (va rv : Nat) (hal : va &&& 1 = 0) (hl : ¬ fast_reg_lut.getD (va >>> 29) 0 ≠ 0) :
    mmu_instruction_translation mmu_full_lookup va rv =
      { status := (mmu_full_lookup va rv).1, rv := (mmu_full_lookup va rv).2,
        lookups := [va] } := by
  simp only [mmu_instruction_translation, hal, ne_eq, not_true_eq_false, if_false, hl]

theorem mmu_instruction_translation_bypass (mmu_full_lookup : Nat → Nat → Nat × Nat)
    (va rv : Nat) (hal : va &&& 1 = 0) (hl : fast_reg_lut.getD (va >>> 29) 0 ≠ 0) :
    mmu_instruction_translation mmu_full_lookup va rv =
      { status := MMU_ERROR_NONE, rv := va, lookups := [] } := by
  simp only [mmu_instruction_translation, hal, ne_eq, not_true_eq_false, if_false, hl,
    not_false_eq_true, if_true]

theorem u32_pred_two : u32_pred 2 = 1 := by decide

theorem mmu_is_translated_aligned (fast_mmu : Bool) (va size : Nat)
    (hal : va &&& u32_pred size = 0) :
    mmu_is_translated fast_mmu va size =
      (if fast_reg_lut.getD (va >>> 29) 0 ≠ 0 then false
       else if va &&& 0xFC000000 = 0x7C000000 then false else true) := by
  simp [mmu_is_translated, hal]

/-- C2, as stated, fails in the on-chip RAM window: at `va = 0x7C000000`, which
is 2-byte aligned, `mmu_is_translated(va, 2)` is false in both builds, yet
`mmu_instruction_translation` does not bypass but calls `mmu_full_lookup` and
returns its status (here a TLB miss). -/
theorem fixed_window_agreement_fails_onchip_ram :
    0x7C000000 &&& 1 = 0 ∧
    mmu_is_translated true 0x7C000000 2 = false ∧
    mmu_is_translated false 0x7C000000 2 = false ∧
    mmu_instruction_translation (fun _ _ => (MMU_ERROR_TLB_MISS, 0)) 0x7C000000 0 =
      { status := MMU_ERROR_TLB_MISS, rv := 0, lookups := [0x7C000000] } := by
  refine ⟨by decide, by decide, by decide, ?_⟩
  exact mmu_instruction_translation_lookup _ _ _ (by decide) (by decide)

/-- C2 (amended): for every 2-byte-aligned 32-bit `va` outside the on-chip RAM
window, `mmu_is_translated(va, 2)` is false exactly when
`mmu_instruction_translation` returns `MMU_ERROR_NONE` with `rv = va` without
calling `mmu_full_lookup`, for every behaviour of `mmu_full_lookup`; inside the
on-chip RAM window `mmu_is_translated(va, 2)` is false while
`mmu_instruction_translation` hands `va` to `mmu_full_lookup` and returns its
result. -/
theorem fixed_window_agreement_outside_onchip_ram (fast_mmu : Bool) (va : Nat)
    (h32 : va < 2 ^ 32) (hal : va &&& 1 = 0) :
    (va &&& 0xFC000000 ≠ 0x7C000000 →
      (mmu_is_translated fast_mmu va 2 = false ↔
        ∀ (mmu_full_lookup : Nat → Nat → Nat × Nat) (rv : Nat),
          mmu_instruction_translation mmu_full_lookup va rv =
            { status := MMU_ERROR_NONE, rv := va, lookups := [] })) ∧
    (va &&& 0xFC000000 = 0x7C000000 →
      mmu_is_translated fast_mmu va 2 = false ∧
        ∀ (mmu_full_lookup : Nat → Nat → Nat × Nat) (rv : Nat),
          mmu_instruction_translation mmu_full_lookup va rv =
            { status := (mmu_full_lookup va rv).1, rv := (mmu_full_lookup va rv).2,
              lookups := [va] }) := by
  have hal2 : va &&& u32_pred 2 = 0 := by rw [u32_pred_two]; exact hal
  rw [mmu_is_translated_aligned fast_mmu va 2 hal2]
  constructor
  · intro hon
    by_cases hl : fast_reg_lut.getD (va >>> 29) 0 ≠ 0
    · rw [if_pos hl]
      simp only [true_iff]
      intro f rv
      exact mmu_instruction_translation_bypass f va rv hal hl
    · rw [if_neg hl, if_neg hon]
      constructor
      · intro h; cases h
      · intro h
        have h1 := h (fun _ _ => (0, 0)) 0
        rw [mmu_instruction_translation_lookup _ va 0 hal hl] at h1
        have h2 := congrArg ITResult.lookups h1
        simp at h2
  · intro hon
    have hl : ¬ fast_reg_lut.getD (va >>> 29) 0 ≠ 0 := by
      rw [fast_reg_lut_ne_zero va h32, shift29]
      have := (onchip_range va h32).1 hon
      omega
    refine ⟨by rw [if_neg hl, if_pos hon], ?_⟩
    intro f rv
    exact mmu_instruction_translation_lookup f va rv hal hl

theorem fixed_window_agreement_outside_onchip_ram_witness :
    (0x8C010000 &&& 0xFC000000 ≠ 0x7C000000 →
      (mmu_is_translated true 0x8C010000 2 = false ↔
        ∀ (mmu_full_lookup : Nat → Nat → Nat × Nat) (rv : Nat),
          mmu_instruction_translation mmu_full_lookup 0x8C010000 rv =
            { status := MMU_ERROR_NONE, rv := 0x8C010000, lookups := [] })) ∧
    (0x8C010000 &&& 0xFC000000 = 0x7C000000 →
      mmu_is_translated true 0x8C010000 2 = false ∧
        ∀ (mmu_full_lookup : Nat → Nat → Nat × Nat) (rv : Nat),
          mmu_instruction_translation mmu_full_lookup 0x8C010000 rv =
            { status := (mmu_full_lookup 0x8C010000 rv).1,
              rv := (mmu_full_lookup 0x8C010000 rv).2, lookups := [0x8C010000] }) :=
  fixed_window_agreement_outside_onchip_ram true 0x8C010000 (by norm_num) (by decide)

/-- C3: for every odd `va`, `mmu_instruction_translation` returns
`MMU_ERROR_BADADDR`, leaves `rv` as it was and does not call `mmu_full_lookup`;
no assumption is made on the region of `va`, so this holds inside the fixed
windows P1, P2 and P4 too. -/
theorem mmu_instruction_translation_odd (mmu_full_lookup : Nat → Nat → Nat × Nat)
    (va rv : Nat) (hodd : va &&& 1 ≠ 0) :
    mmu_instruction_translation mmu_full_lookup va rv =
      { status := MMU_ERROR_BADADDR, rv := rv, lookups := [] } := by
  simp only [mmu_instruction_translation, hodd, ne_eq, not_false_eq_true, if_true]

theorem mmu_instruction_translation_odd_witness :
    0x80000001 >>> 29 = 4 ∧
    mmu_instruction_translation (fun va _ => (MMU_ERROR_NONE, va)) 0x80000001 42 =
      { status := MMU_ERROR_BADADDR, rv := 42, lookups := [] } :=
  ⟨by decide, mmu_instruction_translation_odd (fun va _ => (MMU_ERROR_NONE, va))
    0x80000001 42 (by decide)⟩

/-- C4: for every 32-bit `va` aligned to the width `size` (a power of two),
`mmu_is_translated(va, size)` is false exactly when `va` lies in P1 or P2
(`0x80000000..0xBFFFFFFF`), in P4 (`0xE0000000..0xFFFFFFFF`) or in the on-chip
RAM window (`0x7C000000..0x7FFFFFFF`), in both builds; so it is true on the rest
of P0/U0 and on all of P3. The function has no argument but `va` and `size`. -/
theorem mmu_is_translated_false_iff (fast_mmu : Bool) (va size k : Nat)
    (h32 : va < 2 ^ 32) (hk : k < 32) (hsize : size = 2 ^ k) (hal : va % size = 0) :
    mmu_is_translated fast_mmu va size = false ↔
      ((0x80000000 ≤ va ∧ va ≤ 0xBFFFFFFF) ∨ (0xE0000000 ≤ va ∧ va ≤ 0xFFFFFFFF) ∨
        (0x7C000000 ≤ va ∧ va ≤ 0x7FFFFFFF)) := by
  have hpos : 0 < 2 ^ k := Nat.pow_pos (by decide)
  have hlt : 2 ^ k < 2 ^ 32 := Nat.pow_lt_pow_right (by decide) hk
  have hp : u32_pred size = 2 ^ k - 1 := by
    rw [hsize, u32_pred]
    omega
  have hal2 : va &&& u32_pred size = 0 := by
    rw [hp, Nat.and_pow_two_sub_one_eq_mod, ← hsize]; exact hal
  rw [mmu_is_translated_aligned fast_mmu va size hal2]
  have hr := region_range va h32
  have ho := onchip_range va h32
  by_cases hl : fast_reg_lut.getD (va >>> 29) 0 ≠ 0
  · have := hr.1 ((fast_reg_lut_ne_zero va h32).1 hl)
    rw [if_pos hl]
    simp only [true_iff]
    omega
  · have hn : ¬ ((0x80000000 ≤ va ∧ va ≤ 0xBFFFFFFF) ∨
        (0xE0000000 ≤ va ∧ va ≤ 0xFFFFFFFF)) := fun h =>
      hl ((fast_reg_lut_ne_zero va h32).2 (hr.2 h))
    by_cases hon : va &&& 0xFC000000 = 0x7C000000
    · have := ho.1 hon
      rw [if_neg hl, if_pos hon]
      simp only [true_iff]
      omega
    · have hno : ¬ (0x7C000000 ≤ va ∧ va ≤ 0x7FFFFFFF) := fun h => hon (ho.2 h)
      rw [if_neg hl, if_neg hon]
      constructor
      · intro h; cases h
      · intro h; exfalso; omega

theorem mmu_is_translated_false_iff_witness :
    mmu_is_translated false 0xC0000004 4 = false ↔
      ((0x80000000 ≤ 0xC0000004 ∧ 0xC0000004 ≤ 0xBFFFFFFF) ∨
        (0xE0000000 ≤ 0xC0000004 ∧ 0xC0000004 ≤ 0xFFFFFFFF) ∨
        (0x7C000000 ≤ 0xC0000004 ∧ 0xC0000004 ≤ 0x7FFFFFFF)) :=
  mmu_is_translated_false_iff false 0xC0000004 4 2 (by norm_num) (by decide) (by decide)
    (by decide)

/-! ## The translation cache -/

theorem Arr2.get_set_same (a : Arr2) (i v : Nat) (hi : i < 2) : (a.set i v).get i = v := by
  have h : i = 0 ∨ i = 1 := by omega
  rcases h with h | h <;> subst h <;> simp [Arr2.get, Arr2.set]

theorem Arr2.get_set_other (a : Arr2) (i j v : Nat) (hj : j < 2) (hij : i ≠ j) :
    (a.set i v).get j = a.get j := by
  have h : j = 0 ∨ j = 1 := by omega
  by_cases h0 : i = 0
  · subst h0
    rcases h with h | h
    · exact absurd h.symm hij
    · subst h; simp [Arr2.get, Arr2.set]
  · by_cases h1 : i = 1
    · subst h1
      rcases h with h | h
      · subst h; simp [Arr2.get, Arr2.set]
      · exact absurd h.symm hij
    · simp [Arr2.set, h0, h1]

theorem xor_one_of_lt_two (i : Nat) (hi : i < 2) : i ^^^ 1 = 1 - i := by
  have h : i = 0 ∨ i = 1 := by omega
  rcases h with h | h <;> subst h <;> decide

theorem isMiss_iff (c : MMUCache) (adr : Nat) :
    isMiss c adr = true ↔
      c.lastVAddr.get 0 ≠ pageOf adr ∧ c.lastVAddr.get 1 ≠ pageOf adr := by
  simp [isMiss]

/-- An access that finds its page in slot 0 makes one memory call and nothing
else. -/
theorem Access.run_hit0 {M : Type} (x : Extern M) (c : MMUCache) (m : M) (a : Access)
    (h0 : c.lastVAddr.get 0 = pageOf a.adr) :
    (a.run x c m).ok = true ∧ (a.run x c m).cache = c ∧
      (a.run x c m).trace = [a.memEvent (c.lastPAddr.get 0 ||| (a.adr &&& PAGE_MASK))] := by
  cases a with
  | read size adr =>
    have h0' : c.lastVAddr.get 0 = adr &&& NOT_PAGE_MASK := h0
    simp [Access.run, mmu_ReadMemNoEx, h0', Access.memEvent, Access.adr]
  | write size adr data =>
    have h0' : c.lastVAddr.get 0 = adr &&& NOT_PAGE_MASK := h0
    simp [Access.run, mmu_WriteMemNoEx, h0', Access.memEvent, Access.adr]

/-- An access that finds its page in slot 1 only makes one memory call and
nothing else. -/
theorem Access.run_hit1 {M : Type} (x : Extern M) (c : MMUCache) (m : M) (a : Access)
    (h0 : c.lastVAddr.get 0 ≠ pageOf a.adr) (h1 : c.lastVAddr.get 1 = pageOf a.adr) :
    (a.run x c m).ok = true ∧ (a.run x c m).cache = c ∧
      (a.run x c m).trace = [a.memEvent (c.lastPAddr.get 1 ||| (a.adr &&& PAGE_MASK))] := by
  cases a with
  | read size adr =>
    have h0' : ¬ c.lastVAddr.get 0 = adr &&& NOT_PAGE_MASK := h0
    have h1' : c.lastVAddr.get 1 = adr &&& NOT_PAGE_MASK := h1
    simp [Access.run, mmu_ReadMemNoEx, h0', h1', Access.memEvent, Access.adr]
  | write size adr data =>
    have h0' : ¬ c.lastVAddr.get 0 = adr &&& NOT_PAGE_MASK := h0
    have h1' : c.lastVAddr.get 1 = adr &&& NOT_PAGE_MASK := h1
    simp [Access.run, mmu_WriteMemNoEx, h0', h1', Access.memEvent, Access.adr]

/-- A miss whose translation fails: the exception is raised, nothing else
changes. -/
theorem Access.run_miss_fail {M : Type} (x : Extern M) (c : MMUCache) (m : M) (a : Access)
    (hm : isMiss c a.adr = true)
    (hf : (x.mmu_data_translation MMU_TT_DREAD a.size a.adr).1 ≠ MMU_ERROR_NONE) :
    (a.run x c m).ok = false ∧ (a.run x c m).cache = c ∧ (a.run x c m).mem = m := by
  rw [isMiss_iff] at hm
  obtain ⟨h0, h1⟩ := hm
  cases a with
  | read size adr =>
    have h0' : ¬ c.lastVAddr.get 0 = adr &&& NOT_PAGE_MASK := h0
    have h1' : ¬ c.lastVAddr.get 1 = adr &&& NOT_PAGE_MASK := h1
    have hf' : ¬ (x.mmu_data_translation MMU_TT_DREAD size adr).1 = MMU_ERROR_NONE := hf
    simp [Access.run, mmu_ReadMemNoEx, h0', h1', hf']
  | write size adr data =>
    have h0' : ¬ c.lastVAddr.get 0 = adr &&& NOT_PAGE_MASK := h0
    have h1' : ¬ c.lastVAddr.get 1 = adr &&& NOT_PAGE_MASK := h1
    have hf' : ¬ (x.mmu_data_translation MMU_TT_DREAD size adr).1 = MMU_ERROR_NONE := hf
    simp [Access.run, mmu_WriteMemNoEx, h0', h1', hf']

/-- A miss whose translation succeeds: the pair is filed at `lastIdx`, which is
toggled, and the memory call is made at the translated address. -/
theorem Access.run_miss_ok {M : Type} (x : Extern M) (c : MMUCache) (m : M) (a : Access)
    (hm : isMiss c a.adr = true)
    (hs : (x.mmu_data_translation MMU_TT_DREAD a.size a.adr).1 = MMU_ERROR_NONE) :
    (a.run x c m).ok = true ∧
      (a.run x c m).cache =
        { lastVAddr := c.lastVAddr.set c.lastIdx (pageOf a.adr),
          lastPAddr := c.lastPAddr.set c.lastIdx
            ((x.mmu_data_translation MMU_TT_DREAD a.size a.adr).2 &&& NOT_PAGE_MASK),
          lastIdx := c.lastIdx ^^^ 1 } ∧
      (a.run x c m).trace =
        [Event.translate MMU_TT_DREAD a.size a.adr,
         a.memEvent (x.mmu_data_translation MMU_TT_DREAD a.size a.adr).2] := by
  rw [isMiss_iff] at hm
  obtain ⟨h0, h1⟩ := hm
  cases a with
  | read size adr =>
    have h0' : ¬ c.lastVAddr.get 0 = adr &&& NOT_PAGE_MASK := h0
    have h1' : ¬ c.lastVAddr.get 1 = adr &&& NOT_PAGE_MASK := h1
    have hs' : (x.mmu_data_translation MMU_TT_DREAD size adr).1 = MMU_ERROR_NONE := hs
    simp [Access.run, mmu_ReadMemNoEx, h0', h1', hs', Access.memEvent, Access.adr,
      Access.size, pageOf]
  | write size adr data =>
    have h0' : ¬ c.lastVAddr.get 0 = adr &&& NOT_PAGE_MASK := h0
    have h1' : ¬ c.lastVAddr.get 1 = adr &&& NOT_PAGE_MASK := h1
    have hs' : (x.mmu_data_translation MMU_TT_DREAD size adr).1 = MMU_ERROR_NONE := hs
    simp [Access.run, mmu_WriteMemNoEx, h0', h1', hs', Access.memEvent, Access.adr,
      Access.size, pageOf]

/-- A miss is resolved exactly when the translation it requests succeeds. -/
theorem Access.run_miss_ok_iff {M : Type} (x : Extern M) (c : MMUCache) (m : M) (a : Access)
    (hm : isMiss c a.adr = true) :
    (a.run x c m).ok = true ↔
      (x.mmu_data_translation MMU_TT_DREAD a.size a.adr).1 = MMU_ERROR_NONE := by
  constructor
  · intro hok
    by_contra hf
    have := (Access.run_miss_fail x c m a hm hf).1
    rw [this] at hok
    cases hok
  · intro hs
    exact (Access.run_miss_ok x c m a hm hs).1

/-- An access whose page is in slot `i`, and not in slot 0 when `i = 1`, is
resolved from that slot. -/
theorem Access.run_hit {M : Type} (x : Extern M) (c : MMUCache) (m : M) (a : Access)
    (i : Nat) (hi : i < 2) (hv : c.lastVAddr.get i = pageOf a.adr)
    (hfirst : i = 1 → c.lastVAddr.get 0 ≠ pageOf a.adr) :
    (a.run x c m).ok = true ∧ (a.run x c m).cache = c ∧
      (a.run x c m).trace = [a.memEvent (c.lastPAddr.get i ||| (a.adr &&& PAGE_MASK))] := by
  have h : i = 0 ∨ i = 1 := by omega
  rcases h with h | h
  · subst h; exact Access.run_hit0 x c m a hv
  · subst h; exact Access.run_hit1 x c m a (hfirst rfl) hv

/-- The cache after a resolved miss, slot by slot. -/
theorem Access.run_miss_ok_slots {M : Type} (x : Extern M) (c : MMUCache) (m : M)
    (a : Access) (hidx : c.lastIdx < 2) (hm : isMiss c a.adr = true)
    (hs : (x.mmu_data_translation MMU_TT_DREAD a.size a.adr).1 = MMU_ERROR_NONE) :
    (a.run x c m).cache.lastVAddr.get c.lastIdx = pageOf a.adr ∧
    (a.run x c m).cache.lastPAddr.get c.lastIdx =
      (x.mmu_data_translation MMU_TT_DREAD a.size a.adr).2 &&& NOT_PAGE_MASK ∧
    (a.run x c m).cache.lastVAddr.get (1 - c.lastIdx) = c.lastVAddr.get (1 - c.lastIdx) ∧
    (a.run x c m).cache.lastPAddr.get (1 - c.lastIdx) = c.lastPAddr.get (1 - c.lastIdx) ∧
    (a.run x c m).cache.lastIdx = 1 - c.lastIdx := by
  rw [(Access.run_miss_ok x c m a hm hs).2.1]
  refine ⟨Arr2.get_set_same _ _ _ hidx, Arr2.get_set_same _ _ _ hidx,
    Arr2.get_set_other _ _ _ _ (by omega) (by omega),
    Arr2.get_set_other _ _ _ _ (by omega) (by omega), xor_one_of_lt_two _ hidx⟩

/-- After a resolved access the page of its address is in the cache. -/
theorem Access.run_ok_cached {M : Type} (x : Extern M) (c : MMUCache) (m : M) (a : Access)
    (hidx : c.lastIdx < 2) (hok : (a.run x c m).ok = true) :
    ∃ i, i < 2 ∧ (a.run x c m).cache.lastVAddr.get i = pageOf a.adr ∧
      (i = 1 → (a.run x c m).cache.lastVAddr.get 0 ≠ pageOf a.adr) := by
  by_cases h0 : c.lastVAddr.get 0 = pageOf a.adr
  · refine ⟨0, by decide, ?_, fun h => absurd h (by decide)⟩
    rw [(Access.run_hit0 x c m a h0).2.1]; exact h0
  · by_cases h1 : c.lastVAddr.get 1 = pageOf a.adr
    · refine ⟨1, by decide, ?_, fun _ => ?_⟩
      · rw [(Access.run_hit1 x c m a h0 h1).2.1]; exact h1
      · rw [(Access.run_hit1 x c m a h0 h1).2.1]; exact h0
    · have hm : isMiss c a.adr = true := (isMiss_iff c a.adr).2 ⟨h0, h1⟩
      have hs := (Access.run_miss_ok_iff x c m a hm).1 hok
      obtain ⟨hv, _, hv', _, _⟩ := Access.run_miss_ok_slots x c m a hidx hm hs
      have h : c.lastIdx = 0 ∨ c.lastIdx = 1 := by omega
      rcases h with h | h
      · rw [h] at hv
        exact ⟨0, by decide, hv, fun h => absurd h (by decide)⟩
      · rw [h] at hv hv'
        refine ⟨1, by decide, hv, fun _ => ?_⟩
        have e : (1 : Nat) - 1 = 0 := rfl
        rw [e] at hv'
        rw [hv']; exact h0

/-! ## First write (C5, C6) -/

/-- C5 (the code at the failing input): in the scenario of §8 (page
`0x12345000` writable, not dirty) with the page in neither cache slot, the
DataWrite translation of the address reports `MMU_ERROR_FIRSTWRITE`, but
`mmu_WriteMemNoEx` requests the translation of kind `MMU_TT_DREAD`, which
succeeds: it returns 0, raises no exception and writes at `0x00ABC000`. -/
theorem mmu_WriteMemNoEx_misses_first_write :
    isMiss emptyCache 0x12345000 = true ∧
    translate scenario4K MMU_TT_DWRITE 4 0x12345000 = (MMU_ERROR_FIRSTWRITE, 0) ∧
    (mmu_WriteMemNoEx (scenarioExtern scenario4K) 4 emptyCache [] 0x12345000 0xBEEF).ret
      = 0 ∧
    (mmu_WriteMemNoEx (scenarioExtern scenario4K) 4 emptyCache [] 0x12345000 0xBEEF).trace
      = [Event.translate MMU_TT_DREAD 4 0x12345000, Event.vmem_write 4 0x00ABC000 0xBEEF] ∧
    (mmu_WriteMemNoEx (scenarioExtern scenario4K) 4 emptyCache [] 0x12345000 0xBEEF).mem
      = [(0x00ABC000, 0xBEEF)] := by
  refine ⟨by decide, by decide, by decide, by decide, by decide⟩

/-- C6, as stated, fails: in the scenario of §8 a read of `0x12345000` is
resolved (and files the page in the cache); the DataWrite translation of
`0x12345004` reports `MMU_ERROR_FIRSTWRITE`, yet the following
`mmu_WriteMemNoEx` to `0x12345004` finds the page in the cache, calls no
translation, returns 0 and writes at `0x00ABC004`. -/
theorem write_after_read_skips_first_write :
    (mmu_ReadMemNoEx (scenarioExtern scenario4K) 4 emptyCache [] 0x12345000).fault = false ∧
    translate scenario4K MMU_TT_DWRITE 4 0x12345004 = (MMU_ERROR_FIRSTWRITE, 0) ∧
    (mmu_WriteMemNoEx (scenarioExtern scenario4K) 4
      (mmu_ReadMemNoEx (scenarioExtern scenario4K) 4 emptyCache [] 0x12345000).cache
      (mmu_ReadMemNoEx (scenarioExtern scenario4K) 4 emptyCache [] 0x12345000).mem
      0x12345004 0xBEEF).ret = 0 ∧
    (mmu_WriteMemNoEx (scenarioExtern scenario4K) 4
      (mmu_ReadMemNoEx (scenarioExtern scenario4K) 4 emptyCache [] 0x12345000).cache
      (mmu_ReadMemNoEx (scenarioExtern scenario4K) 4 emptyCache [] 0x12345000).mem
      0x12345004 0xBEEF).trace = [Event.vmem_write 4 0x00ABC004 0xBEEF] := by
  refine ⟨by decide, by decide, by decide, by decide⟩

/-- C6 (amended): after a successful `mmu_ReadMemNoEx` on `adr` (with `lastIdx`
0 or 1), a following `mmu_WriteMemNoEx` to any address of the same 4KB page is
resolved from the translation cache, whatever the flags of the entry mapping
the page: it returns 0, leaves the cache as it is, and its only external call
is the memory write at the cached physical page combined with the low 12 bits
of the address; no translation is requested and no exception raised. -/
theorem write_after_read_hits_cache {M : Type} (x : Extern M) (c : MMUCache) (m : M)
    (size adr size' adr' data : Nat) (hidx : c.lastIdx < 2)
    (hok : (mmu_ReadMemNoEx x size c m adr).fault = false)
    (hpage : pageOf adr' = pageOf adr) :
    ∃ i, i < 2 ∧ (mmu_ReadMemNoEx x size c m adr).cache.lastVAddr.get i = pageOf adr ∧
      (mmu_WriteMemNoEx x size' (mmu_ReadMemNoEx x size c m adr).cache
        (mmu_ReadMemNoEx x size c m adr).mem adr' data).ret = 0 ∧
      (mmu_WriteMemNoEx x size' (mmu_ReadMemNoEx x size c m adr).cache
        (mmu_ReadMemNoEx x size c m adr).mem adr' data).cache =
          (mmu_ReadMemNoEx x size c m adr).cache ∧
      (mmu_WriteMemNoEx x size' (mmu_ReadMemNoEx x size c m adr).cache
        (mmu_ReadMemNoEx x size c m adr).mem adr' data).trace =
          [Event.vmem_write size'
            ((mmu_ReadMemNoEx x size c m adr).cache.lastPAddr.get i |||
              (adr' &&& PAGE_MASK)) data] := by
  have hok' : ((Access.read size adr).run x c m).ok = true := by
    show (!(mmu_ReadMemNoEx x size c m adr).fault) = true
    rw [hok]; rfl
  obtain ⟨i, hi, hv, hfirst⟩ := Access.run_ok_cached x c m (Access.read size adr) hidx hok'
  have hv' : (mmu_ReadMemNoEx x size c m adr).cache.lastVAddr.get i = pageOf adr := hv
  have hfirst' : i = 1 →
      (mmu_ReadMemNoEx x size c m adr).cache.lastVAddr.get 0 ≠ pageOf adr := hfirst
  obtain ⟨w1, w2, w3⟩ := Access.run_hit x (mmu_ReadMemNoEx x size c m adr).cache
    (mmu_ReadMemNoEx x size c m adr).mem (Access.write size' adr' data) i hi
    (by show _ = pageOf adr'; rw [hpage]; exact hv')
    (by intro h; show _ ≠ pageOf adr'; rw [hpage]; exact hfirst' h)
  refine ⟨i, hi, hv', ?_, w2, w3⟩
  have w1' : ((mmu_WriteMemNoEx x size' (mmu_ReadMemNoEx x size c m adr).cache
      (mmu_ReadMemNoEx x size c m adr).mem adr' data).ret == 0) = true := w1
  exact beq_iff_eq.1 w1'

theorem write_after_read_hits_cache_witness :
    ∃ i, i < 2 ∧
      (mmu_ReadMemNoEx (scenarioExtern scenario4K) 4 emptyCache [] 0x12345000).cache.lastVAddr.get
        i = pageOf 0x12345000 ∧
      (mmu_WriteMemNoEx (scenarioExtern scenario4K) 2
        (mmu_ReadMemNoEx (scenarioExtern scenario4K) 4 emptyCache [] 0x12345000).cache
        (mmu_ReadMemNoEx (scenarioExtern scenario4K) 4 emptyCache [] 0x12345000).mem
        0x12345FFE 7).ret = 0 ∧
      (mmu_WriteMemNoEx (scenarioExtern scenario4K) 2
        (mmu_ReadMemNoEx (scenarioExtern scenario4K) 4 emptyCache [] 0x12345000).cache
        (mmu_ReadMemNoEx (scenarioExtern scenario4K) 4 emptyCache [] 0x12345000).mem
        0x12345FFE 7).cache =
          (mmu_ReadMemNoEx (scenarioExtern scenario4K) 4 emptyCache [] 0x12345000).cache ∧
      (mmu_WriteMemNoEx (scenarioExtern scenario4K) 2
        (mmu_ReadMemNoEx (scenarioExtern scenario4K) 4 emptyCache [] 0x12345000).cache
        (mmu_ReadMemNoEx (scenarioExtern scenario4K) 4 emptyCache [] 0x12345000).mem
        0x12345FFE 7).trace =
          [Event.vmem_write 2
            ((mmu_ReadMemNoEx (scenarioExtern scenario4K) 4 emptyCache []
                0x12345000).cache.lastPAddr.get i ||| (0x12345FFE &&& PAGE_MASK)) 7] :=
  write_after_read_hits_cache (scenarioExtern scenario4K) emptyCache [] 4 0x12345000 2
    0x12345FFE 7 (by decide) (by decide) (by decide)

theorem mmu_is_translated_fast_false_iff (va size : Nat) (h32 : va < 2 ^ 32) :
    mmu_is_translated true va size = false ↔
      ((0x80000000 ≤ va ∧ va ≤ 0xBFFFFFFF) ∨ (0xE0000000 ≤ va ∧ va ≤ 0xFFFFFFFF) ∨
        (0x7C000000 ≤ va ∧ va ≤ 0x7FFFFFFF)) := by
  have hr := region_range va h32
  have ho := onchip_range va h32
  have hl := fast_reg_lut_ne_zero va h32
  simp only [mmu_is_translated, Bool.not_true, Bool.false_and, Bool.false_eq_true, if_false]
  by_cases h1 : fast_reg_lut.getD (va >>> 29) 0 ≠ 0
  · have := hr.1 (hl.1 h1)
    rw [if_pos h1]
    simp only [true_iff]
    omega
  · have hn : ¬ ((0x80000000 ≤ va ∧ va ≤ 0xBFFFFFFF) ∨
        (0xE0000000 ≤ va ∧ va ≤ 0xFFFFFFFF)) := fun h => h1 (hl.2 (hr.2 h))
    by_cases hon : va &&& 0xFC000000 = 0x7C000000
    · have := ho.1 hon
      rw [if_neg h1, if_pos hon]
      simp only [true_iff]
      omega
    · have hno : ¬ (0x7C000000 ≤ va ∧ va ≤ 0x7FFFFFFF) := fun h => hon (ho.2 h)
      rw [if_neg h1, if_neg hon]
      constructor
      · intro h; cases h
      · intro h; exfalso; omega

/-- The successful translations over a TLB of one entry with the MMU enabled: a
fixed window mapped to itself, or the page of the entry. -/
theorem translate_single_ok (cfg : MMUConfig) (e : TLBEntry) (hu : cfg.utlb = [e])
    (hen : cfg.enabled = true) (tt size va : Nat)
    (hs : (translate cfg tt size va).1 = MMU_ERROR_NONE) :
    (mmu_is_translated true va size = false ∧ (translate cfg tt size va).2 = va) ∨
    (mmu_is_translated true va size = true ∧ va / pageSize e.sizeClass = e.vpn ∧
      (translate cfg tt size va).2 =
        e.ppn * pageSize e.sizeClass + va % pageSize e.sizeClass) := by
  unfold translate at hs ⊢
  rw [hu, hen] at hs ⊢
  by_cases hal : va % size ≠ 0
  · rw [if_pos hal] at hs; cases hs
  · rw [if_neg hal] at hs ⊢
    by_cases hw : mmu_is_translated true va size = false
    · rw [if_pos hw]; exact Or.inl ⟨hw, rfl⟩
    · rw [if_neg hw] at hs ⊢
      have hw' : mmu_is_translated true va size = true := by
        cases h : mmu_is_translated true va size
        · exact absurd h hw
        · rfl
      refine Or.inr ⟨hw', ?_⟩
      cases hm : addressMatch va cfg.asid e
      · exfalso
        simp [List.filter, hm, MMU_ERROR_TLB_MISS, MMU_ERROR_NONE] at hs
      · have hv : va / pageSize e.sizeClass = e.vpn := by
          simp only [addressMatch, Bool.and_eq_true, beq_iff_eq] at hm
          exact hm.1.2
        refine ⟨hv, ?_⟩
        by_cases hp : checkPermission cfg tt e ≠ MMU_ERROR_NONE
        · exfalso
          simp [List.filter, hm, hp] at hs
        · simp [List.filter, hm, hp]

theorem translate_scenario1K_offsetPreserving :
    OffsetPreserving (translate scenario1K) 1024 := by
  intro tt size va tt' size' va' h32 h32' hs hs'
  have hw := mmu_is_translated_fast_false_iff va size h32
  have hw' := mmu_is_translated_fast_false_iff va' size' h32'
  rcases translate_single_ok scenario1K _ rfl rfl tt size va hs with ⟨b, e⟩ | ⟨b, v, e⟩ <;>
  rcases translate_single_ok scenario1K _ rfl rfl tt' size' va' hs' with
    ⟨b', e'⟩ | ⟨b', v', e'⟩
  · rw [e, e']; exact ⟨rfl, fun h => h⟩
  · have r := hw.1 b
    simp only [pageSize, List.getD_cons_zero] at v' e'
    rw [e, e']; refine ⟨rfl, fun h => ?_⟩; omega
  · have r := hw'.1 b'
    simp only [pageSize, List.getD_cons_zero] at v e
    rw [e, e']; refine ⟨by omega, fun h => ?_⟩; omega
  · simp only [pageSize, List.getD_cons_zero] at v e v' e'
    rw [e, e']; refine ⟨by omega, fun h => ?_⟩; omega

theorem lor_page_offset (p a : Nat) (hp : p < 2 ^ 32) :
    (p &&& NOT_PAGE_MASK) ||| (a &&& PAGE_MASK) = p / 4096 * 4096 + a % 4096 := by
  rw [land_not_page_mask p hp, land_page_mask]
  have h := Nat.mul_add_lt_is_or (by omega : a % 4096 < 2 ^ 12) (p / 4096)
  norm_num at h
  rw [Nat.mul_comm (p / 4096) 4096, ← h]

/-- The arithmetic of a cache hit: for pages of 4KB or more, the cached page of
one address of a 4KB page combined with the offset of another address of the
same 4KB page is the translation of that other address. -/
theorem cached_page_offset (S p p0 a a0 : Nat)
    (hS : S = 4096 ∨ S = 65536 ∨ S = 1048576)
    (hp0 : p0 < 2 ^ 32) (ha : a < 2 ^ 32) (ha0 : a0 < 2 ^ 32)
    (hpage : pageOf a = pageOf a0)
    (h1 : p0 % S = a0 % S) (h2 : p % S = a % S) (h3 : a0 / S = a / S → p0 / S = p / S) :
    p = (p0 &&& NOT_PAGE_MASK) ||| (a &&& PAGE_MASK) := by
  rw [lor_page_offset p0 a hp0]
  unfold pageOf at hpage
  rw [land_not_page_mask a ha, land_not_page_mask a0 ha0] at hpage
  rcases hS with h | h | h <;> subst h <;> omega

theorem Access.run_lastIdx_lt {M : Type} (x : Extern M) (c : MMUCache) (m : M) (a : Access)
    (hidx : c.lastIdx < 2) : (a.run x c m).cache.lastIdx < 2 := by
  by_cases h0 : c.lastVAddr.get 0 = pageOf a.adr
  · rw [(Access.run_hit0 x c m a h0).2.1]; exact hidx
  · by_cases h1 : c.lastVAddr.get 1 = pageOf a.adr
    · rw [(Access.run_hit1 x c m a h0 h1).2.1]; exact hidx
    · have hm : isMiss c a.adr = true := (isMiss_iff c a.adr).2 ⟨h0, h1⟩
      by_cases hs : (x.mmu_data_translation MMU_TT_DREAD a.size a.adr).1 = MMU_ERROR_NONE
      · rw [(Access.run_miss_ok_slots x c m a hidx hm hs).2.2.2.2]; omega
      · rw [(Access.run_miss_fail x c m a hm hs).2.1]; exact hidx

/-- An access keeps the cache coherent with a translation that preserves
offsets on pages of 4KB or more. -/
theorem Access.run_coherent {M : Type} (x : Extern M) (S : Nat)
    (hS : S = 4096 ∨ S = 65536 ∨ S = 1048576)
    (hop : OffsetPreserving x.mmu_data_translation S)
    (hx32 : ∀ tt size va, va < 2 ^ 32 →
      (x.mmu_data_translation tt size va).1 = MMU_ERROR_NONE →
        (x.mmu_data_translation tt size va).2 < 2 ^ 32)
    (c : MMUCache) (m : M) (a : Access) (ha : a.adr < 2 ^ 32) (hidx : c.lastIdx < 2)
    (hc : Coherent x.mmu_data_translation c) :
    Coherent x.mmu_data_translation (a.run x c m).cache := by
  by_cases h0 : c.lastVAddr.get 0 = pageOf a.adr
  · rw [(Access.run_hit0 x c m a h0).2.1]; exact hc
  · by_cases h1 : c.lastVAddr.get 1 = pageOf a.adr
    · rw [(Access.run_hit1 x c m a h0 h1).2.1]; exact hc
    · have hm : isMiss c a.adr = true := (isMiss_iff c a.adr).2 ⟨h0, h1⟩
      by_cases hs : (x.mmu_data_translation MMU_TT_DREAD a.size a.adr).1 = MMU_ERROR_NONE
      · obtain ⟨v, q, v', q', _⟩ := Access.run_miss_ok_slots x c m a hidx hm hs
        intro i adr tt size hi hadr hv hok
        by_cases hic : i = c.lastIdx
        · subst hic
          rw [v] at hv
          rw [q]
          obtain ⟨o1, o2⟩ := hop MMU_TT_DREAD a.size a.adr tt size adr ha hadr hs hok
          obtain ⟨o3, _⟩ := hop tt size adr MMU_TT_DREAD a.size a.adr hadr ha hok hs
          exact cached_page_offset S _ _ adr a.adr hS (hx32 _ _ _ ha hs) hadr ha hv.symm o1 o3 o2
        · have hi' : i = 1 - c.lastIdx := by omega
          subst hi'
          rw [v'] at hv
          rw [q']
          exact hc _ adr tt size hi hadr hv hok
      · rw [(Access.run_miss_fail x c m a hm hs).2.1]; exact hc

theorem runAll_coherent {M : Type} (x : Extern M) (S : Nat)
    (hS : S = 4096 ∨ S = 65536 ∨ S = 1048576)
    (hop : OffsetPreserving x.mmu_data_translation S)
    (hx32 : ∀ tt size va, va < 2 ^ 32 →
      (x.mmu_data_translation tt size va).1 = MMU_ERROR_NONE →
        (x.mmu_data_translation tt size va).2 < 2 ^ 32)
    (l : List Access) (hl : ∀ e ∈ l, e.adr < 2 ^ 32) (c : MMUCache) (m : M)
    (hidx : c.lastIdx < 2) (hc : Coherent x.mmu_data_translation c) :
    (runAll x c m l).1.lastIdx < 2 ∧ Coherent x.mmu_data_translation (runAll x c m l).1 := by
  induction l generalizing c m with
  | nil => exact ⟨hidx, hc⟩
  | cons a l ih =>
    have ha : a.adr < 2 ^ 32 := hl a (List.mem_cons_self a l)
    exact ih (fun e he => hl e (List.mem_cons_of_mem a he)) _ _
      (Access.run_lastIdx_lt x c m a hidx)
      (Access.run_coherent x S hS hop hx32 c m a ha hidx hc)

theorem coherent_of_all_miss (xl : Nat → Nat → Nat → Nat × Nat) (c : MMUCache)
    (hempty : ∀ adr, adr < 2 ^ 32 → isMiss c adr = true) : Coherent xl c := by
  intro i adr tt size hi hadr hv _
  have h := (isMiss_iff c adr).1 (hempty adr hadr)
  have hi' : i = 0 ∨ i = 1 := by omega
  rcases hi' with h' | h' <;> subst h'
  · exact absurd hv h.1
  · exact absurd hv h.2

theorem emptyCache_all_miss (adr : Nat) (hadr : adr < 2 ^ 32) :
    isMiss emptyCache adr = true := by
  rw [isMiss_iff]
  unfold pageOf
  rw [land_not_page_mask adr hadr]
  simp only [emptyCache, Arr2.get]
  constructor <;> (split <;> omega)

theorem translate_scenario4K_offsetPreserving :
    OffsetPreserving (translate scenario4K) 4096 := by
  intro tt size va tt' size' va' h32 h32' hs hs'
  have hw := mmu_is_translated_fast_false_iff va size h32
  have hw' := mmu_is_translated_fast_false_iff va' size' h32'
  rcases translate_single_ok scenario4K _ rfl rfl tt size va hs with ⟨b, e⟩ | ⟨b, v, e⟩ <;>
  rcases translate_single_ok scenario4K _ rfl rfl tt' size' va' hs' with
    ⟨b', e'⟩ | ⟨b', v', e'⟩
  · rw [e, e']; exact ⟨rfl, fun h => h⟩
  · have r := hw.1 b
    simp only [pageSize, List.getD_cons_succ, List.getD_cons_zero] at v' e'
    rw [e, e']; refine ⟨rfl, fun h => ?_⟩; omega
  · have r := hw'.1 b'
    simp only [pageSize, List.getD_cons_succ, List.getD_cons_zero] at v e
    rw [e, e']; refine ⟨by omega, fun h => ?_⟩; omega
  · simp only [pageSize, List.getD_cons_succ, List.getD_cons_zero] at v e v' e'
    rw [e, e']; refine ⟨by omega, fun h => ?_⟩; omega

theorem translate_scenario4K_lt (tt size va : Nat) (h32 : va < 2 ^ 32)
    (hs : (translate scenario4K tt size va).1 = MMU_ERROR_NONE) :
    (translate scenario4K tt size va).2 < 2 ^ 32 := by
  rcases translate_single_ok scenario4K _ rfl rfl tt size va hs with ⟨_, e⟩ | ⟨_, _, e⟩
  · rw [e]; exact h32
  · simp only [pageSize, List.getD_cons_succ, List.getD_cons_zero] at e
    rw [e]; omega

/-! ## Coherence of the cache with the translation (C7) -/

/-- C7, as stated, fails for a 1KB page: the translation of the 1KB scenario
maps every 1KB page offset-preservingly and sends `0x12345400` to `0x00ABC800`;
a first read of `0x12345400` is a resolved miss, and the second read of the
same address, now resolved from the cache, uses `0x00ABC400`. -/
theorem cache_hit_differs_for_1K_page :
    OffsetPreserving (translate scenario1K) 1024 ∧
    (mmu_ReadMemNoEx (scenarioExtern scenario1K) 4 emptyCache [] 0x12345400).fault = false ∧
    isMiss (mmu_ReadMemNoEx (scenarioExtern scenario1K) 4 emptyCache []
      0x12345400).cache 0x12345400 = false ∧
    (mmu_ReadMemNoEx (scenarioExtern scenario1K) 4
      (mmu_ReadMemNoEx (scenarioExtern scenario1K) 4 emptyCache [] 0x12345400).cache []
      0x12345400).trace = [Event.vmem_read 4 0x00ABC400] ∧
    translate scenario1K MMU_TT_DREAD 4 0x12345400 = (MMU_ERROR_NONE, 0x00ABC800) := by
  refine ⟨translate_scenario1K_offsetPreserving, by decide, by decide, by decide, by decide⟩

/-- C7 (amended): let the translation map the pages of one of the size classes
4KB, 64KB, 1MB offset-preservingly and return 32-bit addresses, and let the
accesses of `l` run from a cache in which no slot matches (`lastIdx` 0 or 1),
the TLB unchanged. Whenever a following access `a` is resolved from a cache
slot, its only external call is the memory call at
`lastPAddr[i] | (adr & PAGE_MASK)`, and this is the physical address
`mmu_data_translation` returns for `adr`, for every kind and width with which
the translation of `adr` succeeds. -/
theorem cache_hit_agrees_with_translation {M : Type} (x : Extern M) (S : Nat)
    (hS : S = 4096 ∨ S = 65536 ∨ S = 1048576)
    (hop : OffsetPreserving x.mmu_data_translation S)
    (hx32 : ∀ tt size va, va < 2 ^ 32 →
      (x.mmu_data_translation tt size va).1 = MMU_ERROR_NONE →
        (x.mmu_data_translation tt size va).2 < 2 ^ 32)
    (c : MMUCache) (m : M) (hidx : c.lastIdx < 2)
    (hempty : ∀ adr, adr < 2 ^ 32 → isMiss c adr = true)
    (l : List Access) (hl : ∀ e ∈ l, e.adr < 2 ^ 32)
    (a : Access) (ha : a.adr < 2 ^ 32)
    (hhit : isMiss (runAll x c m l).1 a.adr = false)
    (tt size : Nat) (hs : (x.mmu_data_translation tt size a.adr).1 = MMU_ERROR_NONE) :
    ∃ i, i < 2 ∧ (runAll x c m l).1.lastVAddr.get i = pageOf a.adr ∧
      (a.run x (runAll x c m l).1 (runAll x c m l).2).trace =
        [a.memEvent ((runAll x c m l).1.lastPAddr.get i ||| (a.adr &&& PAGE_MASK))] ∧
      (runAll x c m l).1.lastPAddr.get i ||| (a.adr &&& PAGE_MASK) =
        (x.mmu_data_translation tt size a.adr).2 := by
  obtain ⟨_, hc⟩ := runAll_coherent x S hS hop hx32 l hl c m hidx
    (coherent_of_all_miss _ c hempty)
  by_cases h0 : (runAll x c m l).1.lastVAddr.get 0 = pageOf a.adr
  · exact ⟨0, by decide, h0, (Access.run_hit0 x _ _ a h0).2.2,
      (hc 0 a.adr tt size (by decide) ha h0 hs).symm⟩
  · by_cases h1 : (runAll x c m l).1.lastVAddr.get 1 = pageOf a.adr
    · exact ⟨1, by decide, h1, (Access.run_hit1 x _ _ a h0 h1).2.2,
        (hc 1 a.adr tt size (by decide) ha h1 hs).symm⟩
    · have hm := (isMiss_iff (runAll x c m l).1 a.adr).2 ⟨h0, h1⟩
      rw [hm] at hhit
      cases hhit

theorem cache_hit_agrees_with_translation_witness :
    ∃ i, i < 2 ∧
      (runAll (scenarioExtern scenario4K) emptyCache []
        [Access.read 4 0x12345000]).1.lastVAddr.get i =
          pageOf (Access.write 4 0x12345008 1).adr ∧
      ((Access.write 4 0x12345008 1).run (scenarioExtern scenario4K)
        (runAll (scenarioExtern scenario4K) emptyCache [] [Access.read 4 0x12345000]).1
        (runAll (scenarioExtern scenario4K) emptyCache [] [Access.read 4 0x12345000]).2).trace =
        [(Access.write 4 0x12345008 1).memEvent
          ((runAll (scenarioExtern scenario4K) emptyCache []
            [Access.read 4 0x12345000]).1.lastPAddr.get i |||
              ((Access.write 4 0x12345008 1).adr &&& PAGE_MASK))] ∧
      (runAll (scenarioExtern scenario4K) emptyCache []
        [Access.read 4 0x12345000]).1.lastPAddr.get i |||
          ((Access.write 4 0x12345008 1).adr &&& PAGE_MASK) =
        ((scenarioExtern scenario4K).mmu_data_translation MMU_TT_DREAD 4
          (Access.write 4 0x12345008 1).adr).2 :=
  cache_hit_agrees_with_translation (scenarioExtern scenario4K) 4096 (Or.inl rfl)
    translate_scenario4K_offsetPreserving translate_scenario4K_lt emptyCache []
    (by decide) emptyCache_all_miss [Access.read 4 0x12345000]
    (by intro e he; rw [List.mem_singleton] at he; subst he; norm_num [Access.adr])
    (Access.write 4 0x12345008 1) (by norm_num [Access.adr]) (by decide)
    MMU_TT_DREAD 4 (by decide)

/-! ## Insertion, eviction and hits (C8, C9, C10) -/

theorem runAll_append {M : Type} (x : Extern M) (l1 l2 : List Access) (c : MMUCache) (m : M) :
    runAll x c m (l1 ++ l2) = runAll x (runAll x c m l1).1 (runAll x c m l1).2 l2 := by
  induction l1 generalizing c m with
  | nil => rfl
  | cons a l ih => exact ih _ _

/-- C8: from a cache with `lastIdx` 0 or 1, three consecutive resolved misses on
the accesses `a`, `b`, `d` (pages A, B, C; reads or writes) file A at slot
`lastIdx`, B at the other slot and C over A, toggling `lastIdx` each time;
afterwards the two slots hold the pairs of C and B, the three pages are
distinct, and an access to the address of `a` misses. -/
theorem alternating_insertion {M : Type} (x : Extern M) (c : MMUCache) (m : M)
    (a b d : Access) (hidx : c.lastIdx < 2)
    (hma : isMiss c a.adr = true)
    (hoka : (a.run x c m).ok = true)
    (hmb : isMiss (runAll x c m [a]).1 b.adr = true)
    (hokb : (b.run x (runAll x c m [a]).1 (runAll x c m [a]).2).ok = true)
    (hmd : isMiss (runAll x c m [a, b]).1 d.adr = true)
    (hokd : (d.run x (runAll x c m [a, b]).1 (runAll x c m [a, b]).2).ok = true) :
    (runAll x c m [a]).1 =
      { lastVAddr := c.lastVAddr.set c.lastIdx (pageOf a.adr),
        lastPAddr := c.lastPAddr.set c.lastIdx
          ((x.mmu_data_translation MMU_TT_DREAD a.size a.adr).2 &&& NOT_PAGE_MASK),
        lastIdx := 1 - c.lastIdx } ∧
    (runAll x c m [a, b]).1 =
      { lastVAddr := (c.lastVAddr.set c.lastIdx (pageOf a.adr)).set (1 - c.lastIdx)
          (pageOf b.adr),
        lastPAddr := (c.lastPAddr.set c.lastIdx
          ((x.mmu_data_translation MMU_TT_DREAD a.size a.adr).2 &&& NOT_PAGE_MASK)).set
            (1 - c.lastIdx)
            ((x.mmu_data_translation MMU_TT_DREAD b.size b.adr).2 &&& NOT_PAGE_MASK),
        lastIdx := c.lastIdx } ∧
    (runAll x c m [a, b, d]).1.lastVAddr.get c.lastIdx = pageOf d.adr ∧
    (runAll x c m [a, b, d]).1.lastPAddr.get c.lastIdx =
      (x.mmu_data_translation MMU_TT_DREAD d.size d.adr).2 &&& NOT_PAGE_MASK ∧
    (runAll x c m [a, b, d]).1.lastVAddr.get (1 - c.lastIdx) = pageOf b.adr ∧
    (runAll x c m [a, b, d]).1.lastPAddr.get (1 - c.lastIdx) =
      (x.mmu_data_translation MMU_TT_DREAD b.size b.adr).2 &&& NOT_PAGE_MASK ∧
    (runAll x c m [a, b, d]).1.lastIdx = 1 - c.lastIdx ∧
    pageOf a.adr ≠ pageOf b.adr ∧ pageOf a.adr ≠ pageOf d.adr ∧
    pageOf b.adr ≠ pageOf d.adr ∧
    isMiss (runAll x c m [a, b, d]).1 a.adr = true := by
  have hsa := (Access.run_miss_ok_iff x c m a hma).1 hoka
  have e1 : (runAll x c m [a]).1 = (a.run x c m).cache := rfl
  have e1m : (runAll x c m [a]).2 = (a.run x c m).mem := rfl
  have c1 := (Access.run_miss_ok x c m a hma hsa).2.1
  rw [xor_one_of_lt_two _ hidx] at c1
  rw [← e1] at c1
  have hsb := (Access.run_miss_ok_iff x _ _ b hmb).1 hokb
  have e2 : (runAll x c m [a, b]).1 =
      (b.run x (runAll x c m [a]).1 (runAll x c m [a]).2).cache := rfl
  have c2 := (Access.run_miss_ok x (runAll x c m [a]).1 (runAll x c m [a]).2 b hmb hsb).2.1
  rw [← e2] at c2
  have hsd := (Access.run_miss_ok_iff x _ _ d hmd).1 hokd
  have e3 : (runAll x c m [a, b, d]).1 =
      (d.run x (runAll x c m [a, b]).1 (runAll x c m [a, b]).2).cache := rfl
  have c3 := (Access.run_miss_ok x (runAll x c m [a, b]).1 (runAll x c m [a, b]).2 d hmd hsd).2.1
  rw [← e3] at c3
  rw [isMiss_iff] at hma hmb hmd
  have hi : c.lastIdx = 0 ∨ c.lastIdx = 1 := by omega
  rcases hi with hi | hi
  · rw [hi] at c1
    rw [c1] at c2 hmb
    simp only [show (1 - 0 : Nat) = 1 from rfl, show (1 ^^^ 1 : Nat) = 0 from rfl] at c2
    rw [c2] at c3 hmd
    simp only [show (0 ^^^ 1 : Nat) = 1 from rfl] at c3
    rw [hi, c1, c2, c3, isMiss_iff]
    simp only [Arr2.get, Arr2.set, if_true, if_false, show (1 - 0 : Nat) = 1 from rfl,
      show ¬ ((1 : Nat) = 0) from by decide] at hmb hmd ⊢
    refine ⟨trivial, trivial, trivial, trivial, trivial, trivial, trivial,
      hmb.1, hmd.1, hmd.2, Ne.symm hmd.1, Ne.symm hmb.1⟩
  · rw [hi] at c1
    rw [c1] at c2 hmb
    simp only [show (1 - 1 : Nat) = 0 from rfl, show (0 ^^^ 1 : Nat) = 1 from rfl] at c2
    rw [c2] at c3 hmd
    simp only [show (1 ^^^ 1 : Nat) = 0 from rfl] at c3
    rw [hi, c1, c2, c3, isMiss_iff]
    simp only [Arr2.get, Arr2.set, if_true, if_false, show (1 - 1 : Nat) = 0 from rfl,
      show ¬ ((1 : Nat) = 0) from by decide] at hmb hmd ⊢
    refine ⟨trivial, trivial, trivial, trivial, trivial, trivial, trivial,
      hmb.2, hmd.2, hmd.1, Ne.symm hmb.2, Ne.symm hmd.2⟩

theorem alternating_insertion_witness :
    (runAll (scenarioExtern scenario4K) emptyCache [] [Access.read 4 0x12345000]).1 =
      { lastVAddr := emptyCache.lastVAddr.set emptyCache.lastIdx
          (pageOf (Access.read 4 0x12345000).adr),
        lastPAddr := emptyCache.lastPAddr.set emptyCache.lastIdx
          (((scenarioExtern scenario4K).mmu_data_translation MMU_TT_DREAD
            (Access.read 4 0x12345000).size (Access.read 4 0x12345000).adr).2 &&&
              NOT_PAGE_MASK),
        lastIdx := 1 - emptyCache.lastIdx } :=
  (alternating_insertion (scenarioExtern scenario4K) emptyCache []
    (Access.read 4 0x12345000) (Access.write 4 0x8C000010 5) (Access.read 2 0x8C001002)
    (by decide) (by decide) (by decide) (by decide) (by decide) (by decide) (by decide)).1

/-- A cache whose two slots hold the distinct pages `A` and `B` resolves every
access to one of them from the slot of that page and stays as it is. -/
theorem Access.run_hit_of_two {M : Type} (x : Extern M) (c : MMUCache) (m : M)
    (i A B : Nat) (hi : i < 2) (hA : c.lastVAddr.get i = A)
    (hB : c.lastVAddr.get (1 - i) = B) (hAB : A ≠ B) (e : Access)
    (he : pageOf e.adr = A ∨ pageOf e.adr = B) :
    (e.run x c m).ok = true ∧ (e.run x c m).cache = c ∧
      (e.run x c m).trace =
        [e.memEvent ((if pageOf e.adr = A then c.lastPAddr.get i
          else c.lastPAddr.get (1 - i)) ||| (e.adr &&& PAGE_MASK))] := by
  have hi' : i = 0 ∨ i = 1 := by omega
  rcases he with he | he
  · rw [if_pos he]
    refine Access.run_hit x c m e i hi (by rw [hA, he]) (fun h1 => ?_)
    subst h1
    have hB' : c.lastVAddr.get 0 = B := hB
    rw [hB', he]; exact Ne.symm hAB
  · have hne : ¬ pageOf e.adr = A := by rw [he]; exact Ne.symm hAB
    rw [if_neg hne]
    refine Access.run_hit x c m e (1 - i) (by omega) (by rw [hB, he]) (fun h1 => ?_)
    have h0 : i = 0 := by omega
    subst h0
    rw [hA]; exact Ne.symm hne

theorem runAll_hits_of_two {M : Type} (x : Extern M) (c : MMUCache)
    (i A B : Nat) (hi : i < 2) (hA : c.lastVAddr.get i = A)
    (hB : c.lastVAddr.get (1 - i) = B) (hAB : A ≠ B) (l : List Access)
    (hl : ∀ e ∈ l, pageOf e.adr = A ∨ pageOf e.adr = B) (m : M) :
    (runAll x c m l).1 = c := by
  induction l generalizing m with
  | nil => rfl
  | cons a l ih =>
    have ha := (Access.run_hit_of_two x c m i A B hi hA hB hAB a
      (hl a (List.mem_cons_self a l))).2.1
    show (runAll x (a.run x c m).cache (a.run x c m).mem l).1 = c
    rw [ha]
    exact ih (fun e he => hl e (List.mem_cons_of_mem a he)) _

/-- C9: after two resolved misses on the accesses `a` then `b` (pages A and B,
from a cache with `lastIdx` 0 or 1), every later access to an address of page A
or B, as long as only such accesses follow, is resolved from the cache: its
only external call is the memory call at the cached physical page of its page
combined with the low 12 bits of its address, so `mmu_data_translation` is not
called and no exception is raised, and the cache stays as it is. -/
theorem hits_after_two_misses {M : Type} (x : Extern M) (c : MMUCache) (m : M)
    (a b : Access) (hidx : c.lastIdx < 2)
    (hma : isMiss c a.adr = true)
    (hoka : (a.run x c m).ok = true)
    (hmb : isMiss (runAll x c m [a]).1 b.adr = true)
    (hokb : (b.run x (runAll x c m [a]).1 (runAll x c m [a]).2).ok = true)
    (l : List Access)
    (hl : ∀ e ∈ l, pageOf e.adr = pageOf a.adr ∨ pageOf e.adr = pageOf b.adr)
    (e : Access) (he : pageOf e.adr = pageOf a.adr ∨ pageOf e.adr = pageOf b.adr) :
    (runAll x c m ([a, b] ++ l)).1 = (runAll x c m [a, b]).1 ∧
    (e.run x (runAll x c m ([a, b] ++ l)).1 (runAll x c m ([a, b] ++ l)).2).ok = true ∧
    (e.run x (runAll x c m ([a, b] ++ l)).1 (runAll x c m ([a, b] ++ l)).2).cache =
      (runAll x c m [a, b]).1 ∧
    (e.run x (runAll x c m ([a, b] ++ l)).1 (runAll x c m ([a, b] ++ l)).2).trace =
      [e.memEvent ((if pageOf e.adr = pageOf a.adr
          then (x.mmu_data_translation MMU_TT_DREAD a.size a.adr).2 &&& NOT_PAGE_MASK
          else (x.mmu_data_translation MMU_TT_DREAD b.size b.adr).2 &&& NOT_PAGE_MASK) |||
        (e.adr &&& PAGE_MASK))] := by
  have hsa := (Access.run_miss_ok_iff x c m a hma).1 hoka
  obtain ⟨va, pa, _, _, ia⟩ := Access.run_miss_ok_slots x c m a hidx hma hsa
  have e1 : (runAll x c m [a]).1 = (a.run x c m).cache := rfl
  rw [← e1] at va pa ia
  have hidx1 : (runAll x c m [a]).1.lastIdx < 2 := by rw [ia]; omega
  have hsb := (Access.run_miss_ok_iff x _ _ b hmb).1 hokb
  obtain ⟨vb, pb, va', pa', _⟩ := Access.run_miss_ok_slots x (runAll x c m [a]).1
    (runAll x c m [a]).2 b hidx1 hmb hsb
  have e2 : (runAll x c m [a, b]).1 =
      (b.run x (runAll x c m [a]).1 (runAll x c m [a]).2).cache := rfl
  rw [← e2, ia] at vb pb va' pa'
  have hsub : 1 - (1 - c.lastIdx) = c.lastIdx := by omega
  rw [hsub] at va' pa'
  rw [va] at va'
  rw [pa] at pa'
  have hAB : pageOf a.adr ≠ pageOf b.adr := by
    have h := (isMiss_iff _ _).1 hmb
    have hi : c.lastIdx = 0 ∨ c.lastIdx = 1 := by omega
    rcases hi with hi | hi
    · rw [hi] at va; rw [← va]; exact h.1
    · rw [hi] at va; rw [← va]; exact h.2
  have hkeep := runAll_hits_of_two x (runAll x c m [a, b]).1 c.lastIdx (pageOf a.adr)
    (pageOf b.adr) hidx va' vb hAB l hl (runAll x c m [a, b]).2
  have happ : (runAll x c m ([a, b] ++ l)).1 = (runAll x c m [a, b]).1 := by
    rw [runAll_append]; exact hkeep
  obtain ⟨r1, r2, r3⟩ := Access.run_hit_of_two x (runAll x c m [a, b]).1
    (runAll x c m ([a, b] ++ l)).2 c.lastIdx (pageOf a.adr) (pageOf b.adr) hidx va' vb hAB
    e he
  rw [pa', pb] at r3
  rw [happ]
  exact ⟨rfl, r1, r2, r3⟩

theorem hits_after_two_misses_witness :
    (runAll (scenarioExtern scenario4K) emptyCache []
      ([Access.read 4 0x12345000, Access.write 4 0x8C000010 5] ++
        [Access.write 1 0x12345FFF 9, Access.read 8 0x8C000FF8])).1 =
      (runAll (scenarioExtern scenario4K) emptyCache []
        [Access.read 4 0x12345000, Access.write 4 0x8C000010 5]).1 :=
  (hits_after_two_misses (scenarioExtern scenario4K) emptyCache []
    (Access.read 4 0x12345000) (Access.write 4 0x8C000010 5)
    (by decide) (by decide) (by decide) (by decide) (by decide)
    [Access.write 1 0x12345FFF 9, Access.read 8 0x8C000FF8] (by decide)
    (Access.write 2 0x12345002 3) (by decide)).1

/-- C10: whenever `mmu_ReadMemNoEx` or `mmu_WriteMemNoEx` calls
`mmu_data_translation` (which it does on a cache miss only) and the call returns
a status other than `MMU_ERROR_NONE`, the access fails and `lastVAddr`,
`lastPAddr` and `lastIdx` are exactly as before; and whenever a call changes
the cache, it has requested a translation that returned `MMU_ERROR_NONE`. -/
theorem cache_written_only_on_success {M : Type} (x : Extern M) (size : Nat) (c : MMUCache)
    (m : M) (adr data tt : Nat)
    (hfail : (x.mmu_data_translation tt size adr).1 ≠ MMU_ERROR_NONE) :
    (Event.translate tt size adr ∈ (mmu_ReadMemNoEx x size c m adr).trace →
      isMiss c adr = true ∧ (mmu_ReadMemNoEx x size c m adr).fault = true ∧
        (mmu_ReadMemNoEx x size c m adr).cache = c) ∧
    (Event.translate tt size adr ∈ (mmu_WriteMemNoEx x size c m adr data).trace →
      isMiss c adr = true ∧ (mmu_WriteMemNoEx x size c m adr data).ret = 1 ∧
        (mmu_WriteMemNoEx x size c m adr data).cache = c) ∧
    ((mmu_ReadMemNoEx x size c m adr).cache ≠ c →
      isMiss c adr = true ∧
        Event.translate MMU_TT_DREAD size adr ∈ (mmu_ReadMemNoEx x size c m adr).trace ∧
        (x.mmu_data_translation MMU_TT_DREAD size adr).1 = MMU_ERROR_NONE) ∧
    ((mmu_WriteMemNoEx x size c m adr data).cache ≠ c →
      isMiss c adr = true ∧
        Event.translate MMU_TT_DREAD size adr ∈
          (mmu_WriteMemNoEx x size c m adr data).trace ∧
        (x.mmu_data_translation MMU_TT_DREAD size adr).1 = MMU_ERROR_NONE) := by
  by_cases h0 : c.lastVAddr.get 0 = adr &&& NOT_PAGE_MASK
  · simp [mmu_ReadMemNoEx, mmu_WriteMemNoEx, h0]
  · by_cases h1 : c.lastVAddr.get 1 = adr &&& NOT_PAGE_MASK
    · simp [mmu_ReadMemNoEx, mmu_WriteMemNoEx, h0, h1]
    · have hm : isMiss c adr = true := (isMiss_iff c adr).2 ⟨h0, h1⟩
      by_cases hs : (x.mmu_data_translation MMU_TT_DREAD size adr).1 = MMU_ERROR_NONE
      · have htt : tt ≠ MMU_TT_DREAD := by
          intro h; subst h; exact hfail hs
        simp [mmu_ReadMemNoEx, mmu_WriteMemNoEx, h0, h1, hs, hm, htt]
      · simp [mmu_ReadMemNoEx, mmu_WriteMemNoEx, h0, h1, hs, hm]

theorem cache_written_only_on_success_witness :
    isMiss emptyCache 0x12346000 = true ∧
      (mmu_ReadMemNoEx (scenarioExtern scenario4K) 4 emptyCache [] 0x12346000).fault = true ∧
      (mmu_ReadMemNoEx (scenarioExtern scenario4K) 4 emptyCache [] 0x12346000).cache =
        emptyCache :=
  (cache_written_only_on_success (scenarioExtern scenario4K) 4 emptyCache [] 0x12346000 0
    MMU_TT_DREAD (by decide)).1 (by decide)

/-! ## Fault delivery (C11) -/

/-- C11: `mmu_ReadMemNoEx` returns `(value, false)` and `mmu_WriteMemNoEx`
returns 0 exactly when the access is resolved, by a cache hit or by a requested
translation that returned `MMU_ERROR_NONE`; when the requested translation
returns another status, the accessor calls `DoMMUException` once, with the
address, that status and the access type (`MMU_TT_DREAD` for a read,
`MMU_TT_DWRITE` for a write), makes no memory call, leaves the memory as it is
and returns `(0, true)`, respectively 1. -/
theorem fault_delivery {M : Type} (x : Extern M) (size : Nat) (c : MMUCache) (m : M)
    (adr data : Nat) :
    ((mmu_ReadMemNoEx x size c m adr).fault = false ↔
      (isMiss c adr = false ∨
        ∃ tt, Event.translate tt size adr ∈ (mmu_ReadMemNoEx x size c m adr).trace ∧
          (x.mmu_data_translation tt size adr).1 = MMU_ERROR_NONE)) ∧
    ((mmu_WriteMemNoEx x size c m adr data).ret = 0 ↔
      (isMiss c adr = false ∨
        ∃ tt, Event.translate tt size adr ∈ (mmu_WriteMemNoEx x size c m adr data).trace ∧
          (x.mmu_data_translation tt size adr).1 = MMU_ERROR_NONE)) ∧
    (∀ tt, Event.translate tt size adr ∈ (mmu_ReadMemNoEx x size c m adr).trace →
      (x.mmu_data_translation tt size adr).1 ≠ MMU_ERROR_NONE →
        (mmu_ReadMemNoEx x size c m adr).trace =
          [Event.translate tt size adr,
           Event.exception adr (x.mmu_data_translation tt size adr).1 MMU_TT_DREAD] ∧
        (mmu_ReadMemNoEx x size c m adr).value = 0 ∧
        (mmu_ReadMemNoEx x size c m adr).fault = true ∧
        (mmu_ReadMemNoEx x size c m adr).mem = m) ∧
    (∀ tt, Event.translate tt size adr ∈ (mmu_WriteMemNoEx x size c m adr data).trace →
      (x.mmu_data_translation tt size adr).1 ≠ MMU_ERROR_NONE →
        (mmu_WriteMemNoEx x size c m adr data).trace =
          [Event.translate tt size adr,
           Event.exception adr (x.mmu_data_translation tt size adr).1 MMU_TT_DWRITE] ∧
        (mmu_WriteMemNoEx x size c m adr data).ret = 1 ∧
        (mmu_WriteMemNoEx x size c m adr data).mem = m) := by
  by_cases h0 : c.lastVAddr.get 0 = adr &&& NOT_PAGE_MASK
  · have hm : isMiss c adr = false := by simp [isMiss, pageOf, h0]
    simp [mmu_ReadMemNoEx, mmu_WriteMemNoEx, h0, hm]
  · by_cases h1 : c.lastVAddr.get 1 = adr &&& NOT_PAGE_MASK
    · have hm : isMiss c adr = false := by simp [isMiss, pageOf, h1]
      simp [mmu_ReadMemNoEx, mmu_WriteMemNoEx, h0, h1, hm]
    · have hm : isMiss c adr = true := (isMiss_iff c adr).2 ⟨h0, h1⟩
      by_cases hs : (x.mmu_data_translation MMU_TT_DREAD size adr).1 = MMU_ERROR_NONE
      · simp only [mmu_ReadMemNoEx, mmu_WriteMemNoEx, h0, h1, hs, hm, if_false, ne_eq,
          not_true_eq_false, List.mem_cons, Event.translate.injEq, true_and,
          List.mem_singleton, reduceCtorEq, or_false, List.not_mem_nil, Bool.true_eq_false,
          false_or, true_iff, and_true, and_self]
        refine ⟨⟨MMU_TT_DREAD, rfl, hs⟩, ⟨MMU_TT_DREAD, rfl, hs⟩, ?_, ?_⟩ <;>
        · intro tt htt hne
          subst htt
          exact absurd hs hne
      · simp only [mmu_ReadMemNoEx, mmu_WriteMemNoEx, h0, h1, hs, hm, if_false, ne_eq,
          not_false_eq_true, if_true, List.mem_cons, Event.translate.injEq, true_and,
          List.mem_singleton, reduceCtorEq, or_false, List.not_mem_nil, Bool.true_eq_false,
          false_or, Nat.one_ne_zero, false_iff, not_exists, not_and, and_true, and_self]
        refine ⟨?_, ?_, ?_, ?_⟩
        · intro tt htt; subst htt; exact hs
        · intro tt htt; subst htt; exact hs
        · intro tt htt _; subst htt; rfl
        · intro tt htt _; subst htt; rfl

theorem fault_delivery_witness :
    (mmu_ReadMemNoEx (scenarioExtern scenario4K) 4 emptyCache [] 0x12346000).trace =
      [Event.translate MMU_TT_DREAD 4 0x12346000,
       Event.exception 0x12346000
         ((scenarioExtern scenario4K).mmu_data_translation MMU_TT_DREAD 4 0x12346000).1
         MMU_TT_DREAD] ∧
    (mmu_ReadMemNoEx (scenarioExtern scenario4K) 4 emptyCache [] 0x12346000).value = 0 ∧
    (mmu_ReadMemNoEx (scenarioExtern scenario4K) 4 emptyCache [] 0x12346000).fault = true ∧
    (mmu_ReadMemNoEx (scenarioExtern scenario4K) 4 emptyCache [] 0x12346000).mem = [] :=
  (fault_delivery (scenarioExtern scenario4K) 4 emptyCache [] 0x12346000 0).2.2.1
    MMU_TT_DREAD (by decide) (by decide)

/-! ## Store queue and global disable on the instruction path (C12, C13) -/

theorem store_queue_region (va : Nat) (h32 : va < 2 ^ 32)
    (hsq : va &&& 0xFC000000 = 0xE0000000) : va >>> 29 = 7 := by
  rw [land_region va h32] at hsq
  rw [shift29]
  omega

/-- C12, as stated, fails: `0xE0000000` lies in the store-queue window, and the
instruction translation of it returns `MMU_ERROR_NONE` with `rv = va`, without
calling `mmu_full_lookup`. -/
theorem store_queue_fetch_not_an_error :
    0xE0000000 &&& 0xFC000000 = 0xE0000000 ∧
    mmu_instruction_translation (fun _ _ => (MMU_ERROR_TLB_MISS, 0)) 0xE0000000 0 =
      { status := MMU_ERROR_NONE, rv := 0xE0000000, lookups := [] } := by
  refine ⟨by decide, ?_⟩
  exact mmu_instruction_translation_bypass _ _ _ (by decide) (by decide)

/-- C12 (amended): for every 32-bit `va` of the store-queue window
(`(va & 0xFC000000) == 0xE0000000`) the FAST_MMU `mmu_instruction_translation`
is an error exactly when `va` is odd: it returns `MMU_ERROR_BADADDR` for odd
`va`, and for even `va` it takes the P4 bypass, returning `MMU_ERROR_NONE` with
`rv = va` without calling `mmu_full_lookup`. -/
theorem store_queue_fetch_bypasses (mmu_full_lookup : Nat → Nat → Nat × Nat)
    (va rv : Nat) (h32 : va < 2 ^ 32) (hsq : va &&& 0xFC000000 = 0xE0000000) :
    (va &&& 1 ≠ 0 →
      mmu_instruction_translation mmu_full_lookup va rv =
        { status := MMU_ERROR_BADADDR, rv := rv, lookups := [] }) ∧
    (va &&& 1 = 0 →
      mmu_instruction_translation mmu_full_lookup va rv =
        { status := MMU_ERROR_NONE, rv := va, lookups := [] }) ∧
    ((mmu_instruction_translation mmu_full_lookup va rv).status ≠ MMU_ERROR_NONE ↔
      va &&& 1 ≠ 0) := by
  have hl : fast_reg_lut.getD (va >>> 29) 0 ≠ 0 :=
    (fast_reg_lut_ne_zero va h32).2 (Or.inr (Or.inr (store_queue_region va h32 hsq)))
  have hodd : va &&& 1 ≠ 0 →
      mmu_instruction_translation mmu_full_lookup va rv =
        { status := MMU_ERROR_BADADDR, rv := rv, lookups := [] } := by
    intro h
    simp only [mmu_instruction_translation, h, ne_eq, not_false_eq_true, if_true]
  refine ⟨hodd, fun h => mmu_instruction_translation_bypass _ va rv h hl, ?_⟩
  by_cases h : va &&& 1 = 0
  · rw [mmu_instruction_translation_bypass _ va rv h hl]
    exact ⟨fun hh => absurd rfl hh, fun hh => absurd h hh⟩
  · rw [hodd h]
    exact ⟨fun _ => h, fun _ => show MMU_ERROR_BADADDR ≠ MMU_ERROR_NONE from by decide⟩

theorem store_queue_fetch_bypasses_witness :
    (0xE0000020 &&& 1 ≠ 0 →
      mmu_instruction_translation (fun _ _ => (MMU_ERROR_TLB_MISS, 0)) 0xE0000020 9 =
        { status := MMU_ERROR_BADADDR, rv := 9, lookups := [] }) ∧
    (0xE0000020 &&& 1 = 0 →
      mmu_instruction_translation (fun _ _ => (MMU_ERROR_TLB_MISS, 0)) 0xE0000020 9 =
        { status := MMU_ERROR_NONE, rv := 0xE0000020, lookups := [] }) ∧
    ((mmu_instruction_translation (fun _ _ => (MMU_ERROR_TLB_MISS, 0))
        0xE0000020 9).status ≠ MMU_ERROR_NONE ↔ 0xE0000020 &&& 1 ≠ 0) :=
  store_queue_fetch_bypasses (fun _ _ => (MMU_ERROR_TLB_MISS, 0)) 0xE0000020 9
    (by norm_num) (by decide)

/-- C13, as stated, fails: with the MMU disabled (`FullMMU` off), the
instruction translation of the 2-byte-aligned P0 address `0x0C010000` and of the
P3 address `0xC0000000` calls `mmu_full_lookup` and returns its status, here a
TLB miss, instead of bypassing. -/
theorem disabled_mmu_still_looks_up :
    mmu_enabled false 1 = false ∧
    mmu_instruction_translation (fun _ _ => (MMU_ERROR_TLB_MISS, 0)) 0x0C010000 0 =
      { status := MMU_ERROR_TLB_MISS, rv := 0, lookups := [0x0C010000] } ∧
    mmu_instruction_translation (fun _ _ => (MMU_ERROR_TLB_MISS, 0)) 0xC0000000 0 =
      { status := MMU_ERROR_TLB_MISS, rv := 0, lookups := [0xC0000000] } := by
  refine ⟨by decide, ?_, ?_⟩
  · exact mmu_instruction_translation_lookup _ _ _ (by decide) (by decide)
  · exact mmu_instruction_translation_lookup _ _ _ (by decide) (by decide)

/-- C13 (amended): `mmu_instruction_translation` does not read `mmu_enabled()`.
Whenever `mmu_enabled()` is false (as when it is true), for every 32-bit `va`:
an odd `va` gives `MMU_ERROR_BADADDR`; an even `va` in P1, P2 or P4 gives
`MMU_ERROR_NONE` with `rv = va` and no call of `mmu_full_lookup`; an even `va`
in P0/U0 or P3 is handed to `mmu_full_lookup`, whose status and `rv` are
returned. -/
theorem disabled_mmu_instruction_translation (FullMMU : Bool) (AT : Nat)
    (mmu_full_lookup : Bool → Nat → Nat → Nat × Nat) (va rv : Nat) (h32 : va < 2 ^ 32)
    (hdis : mmu_enabled FullMMU AT = false) :
    (va &&& 1 ≠ 0 →
      mmu_instruction_translation (mmu_full_lookup (mmu_enabled FullMMU AT)) va rv =
        { status := MMU_ERROR_BADADDR, rv := rv, lookups := [] }) ∧
    (va &&& 1 = 0 →
      ((0x80000000 ≤ va ∧ va ≤ 0xBFFFFFFF) ∨ (0xE0000000 ≤ va ∧ va ≤ 0xFFFFFFFF)) →
      mmu_instruction_translation (mmu_full_lookup (mmu_enabled FullMMU AT)) va rv =
        { status := MMU_ERROR_NONE, rv := va, lookups := [] }) ∧
    (va &&& 1 = 0 →
      (va < 0x80000000 ∨ (0xC0000000 ≤ va ∧ va ≤ 0xDFFFFFFF)) →
      mmu_instruction_translation (mmu_full_lookup (mmu_enabled FullMMU AT)) va rv =
        { status := (mmu_full_lookup false va rv).1, rv := (mmu_full_lookup false va rv).2,
          lookups := [va] }) := by
  rw [hdis]
  refine ⟨fun h => ?_, fun h hr => ?_, fun h hr => ?_⟩
  · simp only [mmu_instruction_translation, h, ne_eq, not_false_eq_true, if_true]
  · exact mmu_instruction_translation_bypass _ va rv h
      ((fast_reg_lut_ne_zero va h32).2 ((region_range va h32).2 hr))
  · refine mmu_instruction_translation_lookup _ va rv h (fun hl => ?_)
    have := (region_range va h32).1 ((fast_reg_lut_ne_zero va h32).1 hl)
    omega

theorem disabled_mmu_instruction_translation_witness :
    mmu_instruction_translation
        ((fun (en : Bool) va _ => if en then (MMU_ERROR_TLB_MISS, 0) else (MMU_ERROR_NONE, va))
          (mmu_enabled false 1)) 0x0C010000 3 =
      { status := ((fun (en : Bool) va _ => if en then (MMU_ERROR_TLB_MISS, 0)
            else (MMU_ERROR_NONE, va)) false 0x0C010000 3).1,
        rv := ((fun (en : Bool) va _ => if en then (MMU_ERROR_TLB_MISS, 0)
            else (MMU_ERROR_NONE, va)) false 0x0C010000 3).2,
        lookups := [0x0C010000] } :=
  (disabled_mmu_instruction_translation false 1
    (fun (en : Bool) va _ => if en then (MMU_ERROR_TLB_MISS, 0) else (MMU_ERROR_NONE, va))
    0x0C010000 3 (by norm_num) (by decide)).2.2 (by decide) (by decide)

/-! ## Multi-hit (C14) -/

theorem two_le_length_cons_cons {α : Type} (l : List α) (h2 : 2 ≤ l.length) :
    ∃ a b t, l = a :: b :: t := by
  match l, h2 with
  | a :: b :: t, _ => exact ⟨a, b, t, rfl⟩

/-- C14: when two or more valid entries of a table match an address,
`mmu_full_lookup` on that table returns `MMU_ERROR_TLB_MHIT`, and so does
`mmu_instruction_lookup` when the table is the ITLB, or is the UTLB and no ITLB
entry matches; this holds for every arrangement `table'` of the entries of the
table, and whether or not one of the entries alone would translate. -/
theorem multihit_reported (table table' : List TLBEntry) (asid va rv : Nat)
    (hperm : table.Perm table')
    (h2 : 2 ≤ table.countP (addressMatch va asid)) :
    (mmu_full_lookup table' asid va rv).1 = MMU_ERROR_TLB_MHIT ∧
    (∀ utlb, (mmu_instruction_lookup table' utlb asid va rv).1 = MMU_ERROR_TLB_MHIT) ∧
    (∀ itlb, itlb.countP (addressMatch va asid) = 0 →
      (mmu_instruction_lookup itlb table' asid va rv).1 = MMU_ERROR_TLB_MHIT) := by
  have hlen : 2 ≤ (table'.filter (addressMatch va asid)).length := by
    rw [← List.countP_eq_length_filter, ← hperm.countP_eq]; exact h2
  have hfull : (mmu_full_lookup table' asid va rv).1 = MMU_ERROR_TLB_MHIT := by
    obtain ⟨a, b, t, ht⟩ := two_le_length_cons_cons _ hlen
    unfold mmu_full_lookup
    rw [ht]
  refine ⟨hfull, fun utlb => ?_, fun itlb h0 => ?_⟩
  · obtain ⟨a, b, t, ht⟩ := two_le_length_cons_cons _ hlen
    unfold mmu_instruction_lookup
    rw [ht]
  · have hnil : itlb.filter (addressMatch va asid) = [] := by
      rw [← List.length_eq_zero, ← List.countP_eq_length_filter]; exact h0
    unfold mmu_instruction_lookup
    rw [hnil]
    exact hfull

theorem multihit_reported_witness :
    (mmu_full_lookup scenarioOverlap.utlb.reverse 0 0x12345000 0).1 = MMU_ERROR_TLB_MHIT ∧
    (mmu_full_lookup scenario4K.utlb 0 0x12345000 0).1 = MMU_ERROR_NONE :=
  ⟨(multihit_reported scenarioOverlap.utlb scenarioOverlap.utlb.reverse 0 0x12345000 0
      (List.reverse_perm _).symm (by decide)).1, by decide⟩

/-! ## Hits leave the cache alone (C15, C16, C17) -/

theorem Access.run_hit_cache {M : Type} (x : Extern M) (c : MMUCache) (m : M) (e : Access)
    (hh : isMiss c e.adr = false) : (e.run x c m).cache = c := by
  by_cases h0 : c.lastVAddr.get 0 = pageOf e.adr
  · exact (Access.run_hit0 x c m e h0).2.1
  · by_cases h1 : c.lastVAddr.get 1 = pageOf e.adr
    · exact (Access.run_hit1 x c m e h0 h1).2.1
    · have hm := (isMiss_iff c e.adr).2 ⟨h0, h1⟩
      rw [hm] at hh
      cases hh

/-- C15: a cache hit in `mmu_ReadMemNoEx` or `mmu_WriteMemNoEx` changes none of
`lastVAddr`, `lastPAddr` and `lastIdx`. Hence, from a cache with `lastIdx` 0 or
1, after resolved misses `a` (page A) then `b` (page B), a hit `h` on page A
and a resolved miss `d` on a third page C, the slot of A holds C, the slot of
B still holds B: an access to A misses and an access to B hits. -/
theorem hit_does_not_refresh {M : Type} (x : Extern M) (c : MMUCache) (m : M)
    (a b h d : Access) (hidx : c.lastIdx < 2)
    (hma : isMiss c a.adr = true)
    (hoka : (a.run x c m).ok = true)
    (hmb : isMiss (runAll x c m [a]).1 b.adr = true)
    (hokb : (b.run x (runAll x c m [a]).1 (runAll x c m [a]).2).ok = true)
    (hh : pageOf h.adr = pageOf a.adr)
    (hmd : isMiss (runAll x c m [a, b, h]).1 d.adr = true)
    (hokd : (d.run x (runAll x c m [a, b, h]).1 (runAll x c m [a, b, h]).2).ok = true) :
    (∀ (c' : MMUCache) (m' : M) (e : Access), isMiss c' e.adr = false →
      (e.run x c' m').cache = c') ∧
    isMiss (runAll x c m [a, b]).1 h.adr = false ∧
    (runAll x c m [a, b, h]).1 = (runAll x c m [a, b]).1 ∧
    (runAll x c m [a, b, h, d]).1.lastVAddr.get c.lastIdx = pageOf d.adr ∧
    (runAll x c m [a, b, h, d]).1.lastVAddr.get (1 - c.lastIdx) = pageOf b.adr ∧
    isMiss (runAll x c m [a, b, h, d]).1 a.adr = true ∧
    isMiss (runAll x c m [a, b, h, d]).1 b.adr = false := by
  have hsa := (Access.run_miss_ok_iff x c m a hma).1 hoka
  obtain ⟨va, _, _, _, ia⟩ := Access.run_miss_ok_slots x c m a hidx hma hsa
  have e1 : (runAll x c m [a]).1 = (a.run x c m).cache := rfl
  rw [← e1] at va ia
  have hidx1 : (runAll x c m [a]).1.lastIdx < 2 := by rw [ia]; omega
  have hsb := (Access.run_miss_ok_iff x _ _ b hmb).1 hokb
  obtain ⟨vb, _, va', _, ib⟩ := Access.run_miss_ok_slots x (runAll x c m [a]).1
    (runAll x c m [a]).2 b hidx1 hmb hsb
  have e2 : (runAll x c m [a, b]).1 =
      (b.run x (runAll x c m [a]).1 (runAll x c m [a]).2).cache := rfl
  rw [← e2, ia] at vb va' ib
  have hsub : 1 - (1 - c.lastIdx) = c.lastIdx := by omega
  rw [hsub] at va' ib
  rw [va] at va'
  have hAB : pageOf a.adr ≠ pageOf b.adr := by
    have hb := (isMiss_iff _ _).1 hmb
    have hi : c.lastIdx = 0 ∨ c.lastIdx = 1 := by omega
    rcases hi with hi | hi
    · rw [hi] at va; rw [← va]; exact hb.1
    · rw [hi] at va; rw [← va]; exact hb.2
  -- the hit on A
  have hhit : isMiss (runAll x c m [a, b]).1 h.adr = false := by
    have hi : c.lastIdx = 0 ∨ c.lastIdx = 1 := by omega
    rcases hi with hi | hi <;> rw [hi] at va' <;> simp [isMiss, hh, va']
  have e3 : (runAll x c m [a, b, h]).1 =
      (h.run x (runAll x c m [a, b]).1 (runAll x c m [a, b]).2).cache := rfl
  have c3 : (runAll x c m [a, b, h]).1 = (runAll x c m [a, b]).1 := by
    rw [e3]; exact Access.run_hit_cache x _ _ h hhit
  -- the miss on C
  have hidx3 : (runAll x c m [a, b, h]).1.lastIdx < 2 := by rw [c3, ib]; exact hidx
  have hsd := (Access.run_miss_ok_iff x _ _ d hmd).1 hokd
  obtain ⟨vd, _, vb', _, _⟩ := Access.run_miss_ok_slots x (runAll x c m [a, b, h]).1
    (runAll x c m [a, b, h]).2 d hidx3 hmd hsd
  have e4 : (runAll x c m [a, b, h, d]).1 =
      (d.run x (runAll x c m [a, b, h]).1 (runAll x c m [a, b, h]).2).cache := rfl
  rw [← e4, c3, ib] at vd vb'
  rw [vb] at vb'
  have hmd' := (isMiss_iff _ _).1 hmd
  rw [c3] at hmd'
  refine ⟨fun c' m' e he => Access.run_hit_cache x c' m' e he, hhit, c3, vd, vb', ?_, ?_⟩
  · rw [isMiss_iff]
    have hi : c.lastIdx = 0 ∨ c.lastIdx = 1 := by omega
    rcases hi with hi | hi
    · rw [hi] at vd vb' va'
      rw [vd, show (1 : Nat) - 0 = 1 from rfl] at *
      rw [vb']
      rw [va'] at hmd'
      exact ⟨Ne.symm hmd'.1, Ne.symm hAB⟩
    · rw [hi] at vd vb' va'
      rw [show (1 : Nat) - 1 = 0 from rfl] at vb'
      rw [vd, vb']
      rw [va'] at hmd'
      exact ⟨Ne.symm hAB, Ne.symm hmd'.2⟩
  · have hi : c.lastIdx = 0 ∨ c.lastIdx = 1 := by omega
    rcases hi with hi | hi <;> rw [hi] at vb' <;> simp [isMiss, vb']

theorem hit_does_not_refresh_witness :
    isMiss (runAll (scenarioExtern scenario4K) emptyCache []
      [Access.read 4 0x12345000, Access.write 4 0x8C000010 5, Access.read 2 0x12345FFE,
       Access.read 4 0xA0000000]).1 (Access.read 4 0x12345000).adr = true :=
  (hit_does_not_refresh (scenarioExtern scenario4K) emptyCache []
    (Access.read 4 0x12345000) (Access.write 4 0x8C000010 5) (Access.read 2 0x12345FFE)
    (Access.read 4 0xA0000000) (by decide) (by decide) (by decide) (by decide) (by decide)
    (by decide) (by decide) (by decide)).2.2.2.2.2.1

theorem pageOf_le (adr : Nat) : pageOf adr ≤ NOT_PAGE_MASK := Nat.and_le_right

theorem emptyCache_noDoubleMatch : NoDoubleMatch emptyCache := by
  intro adr h
  have h1 := pageOf_le adr
  rw [← h.1] at h1
  revert h1
  decide

/-- One access keeps the slots from holding the same page. -/
theorem Access.run_noDoubleMatch {M : Type} (x : Extern M) (c : MMUCache) (m : M)
    (a : Access) (hidx : c.lastIdx < 2) (hinv : NoDoubleMatch c) :
    NoDoubleMatch (a.run x c m).cache := by
  by_cases h0 : c.lastVAddr.get 0 = pageOf a.adr
  · rw [(Access.run_hit0 x c m a h0).2.1]; exact hinv
  · by_cases h1 : c.lastVAddr.get 1 = pageOf a.adr
    · rw [(Access.run_hit1 x c m a h0 h1).2.1]; exact hinv
    · have hm : isMiss c a.adr = true := (isMiss_iff c a.adr).2 ⟨h0, h1⟩
      by_cases hs : (x.mmu_data_translation MMU_TT_DREAD a.size a.adr).1 = MMU_ERROR_NONE
      · obtain ⟨v, _, v', _, _⟩ := Access.run_miss_ok_slots x c m a hidx hm hs
        intro adr hboth
        have hi : c.lastIdx = 0 ∨ c.lastIdx = 1 := by omega
        rcases hi with hi | hi
        · rw [hi] at v v'
          rw [show (1 : Nat) - 0 = 1 from rfl] at v'
          rw [v] at hboth
          rw [v'] at hboth
          exact h1 (hboth.2.trans hboth.1.symm)
        · rw [hi] at v v'
          rw [show (1 : Nat) - 1 = 0 from rfl] at v'
          rw [v] at hboth
          rw [v'] at hboth
          exact h0 (hboth.1.trans hboth.2.symm)
      · rw [(Access.run_miss_fail x c m a hm hs).2.1]; exact hinv

theorem runAll_noDoubleMatch {M : Type} (x : Extern M) (l : List Access) (c : MMUCache)
    (m : M) (hidx : c.lastIdx < 2) (hinv : NoDoubleMatch c) :
    (runAll x c m l).1.lastIdx < 2 ∧ NoDoubleMatch (runAll x c m l).1 := by
  induction l generalizing c m with
  | nil => exact ⟨hidx, hinv⟩
  | cons a l ih =>
    exact ih _ _ (Access.run_lastIdx_lt x c m a hidx)
      (Access.run_noDoubleMatch x c m a hidx hinv)

/-- C16: if no address matches both cache slots before a call of
`mmu_ReadMemNoEx` or `mmu_WriteMemNoEx` (with `lastIdx` 0 or 1), none does after
the call, nor after any sequence `l` of calls; so in every state reached from
such a cache (a flushed cache is one) at most one slot matches the address of
an access `a`, and whichever slot `i` matches is the slot the access is
resolved from: checking slot 1 first would give the same address. -/
theorem lookup_order_immaterial {M : Type} (x : Extern M) (c : MMUCache) (m : M)
    (hidx : c.lastIdx < 2) (hinv : NoDoubleMatch c) (l : List Access) (a : Access) :
    NoDoubleMatch (a.run x c m).cache ∧
    NoDoubleMatch (runAll x c m l).1 ∧
    ¬ ((runAll x c m l).1.lastVAddr.get 0 = pageOf a.adr ∧
        (runAll x c m l).1.lastVAddr.get 1 = pageOf a.adr) ∧
    (∀ i, i < 2 → (runAll x c m l).1.lastVAddr.get i = pageOf a.adr →
      (a.run x (runAll x c m l).1 (runAll x c m l).2).trace =
        [a.memEvent ((runAll x c m l).1.lastPAddr.get i ||| (a.adr &&& PAGE_MASK))]) := by
  have hl := (runAll_noDoubleMatch x l c m hidx hinv).2
  refine ⟨Access.run_noDoubleMatch x c m a hidx hinv, hl, hl a.adr, fun i hi hv => ?_⟩
  exact (Access.run_hit x _ _ a i hi hv (fun h1 h0 => hl a.adr ⟨h0, by rw [← h1]; exact hv⟩)).2.2

theorem lookup_order_immaterial_witness :
    NoDoubleMatch
      (runAll (scenarioExtern scenario4K) emptyCache []
        [Access.read 4 0x12345000, Access.write 4 0x8C000010 5]).1 :=
  (lookup_order_immaterial (scenarioExtern scenario4K) emptyCache [] (by decide)
    emptyCache_noDoubleMatch [Access.read 4 0x12345000, Access.write 4 0x8C000010 5]
    (Access.read 4 0x8C000014)).2.1

theorem land_not_page_mask_low (p : Nat) : (p &&& NOT_PAGE_MASK) &&& PAGE_MASK = 0 := by
  rw [Nat.and_assoc, show NOT_PAGE_MASK &&& PAGE_MASK = 0 from by decide, Nat.and_zero]

theorem lor_offset_of_aligned (P adr : Nat) (hP : P &&& PAGE_MASK = 0) :
    P ||| (adr &&& PAGE_MASK) = P + adr % 4096 := by
  rw [land_page_mask] at hP ⊢
  have h := Nat.mul_add_lt_is_or (by omega : adr % 4096 < 2 ^ 12) (P / 4096)
  norm_num at h
  have hP' : 4096 * (P / 4096) = P := by omega
  rw [hP'] at h
  exact h.symm

/-- C17: after a resolved miss (with `lastIdx` 0 or 1) the pair filed in the
slot has the low 12 bits (`PAGE_MASK`) zero in both `lastVAddr` and
`lastPAddr`; so for every `adr` the address `lastPAddr[slot] | (adr &
PAGE_MASK)` composed on a later hit is the sum of the two, with the cached
physical page as its upper 20 bits and the offset of `adr` as its low 12 bits. -/
theorem inserted_entry_page_aligned {M : Type} (x : Extern M) (c : MMUCache) (m : M)
    (a : Access) (hidx : c.lastIdx < 2) (hm : isMiss c a.adr = true)
    (hok : (a.run x c m).ok = true) :
    (a.run x c m).cache.lastVAddr.get c.lastIdx &&& PAGE_MASK = 0 ∧
    (a.run x c m).cache.lastPAddr.get c.lastIdx &&& PAGE_MASK = 0 ∧
    (a.run x c m).cache.lastPAddr.get c.lastIdx < 2 ^ 32 ∧
    ∀ adr,
      (a.run x c m).cache.lastPAddr.get c.lastIdx ||| (adr &&& PAGE_MASK) =
        (a.run x c m).cache.lastPAddr.get c.lastIdx + adr % 4096 ∧
      ((a.run x c m).cache.lastPAddr.get c.lastIdx ||| (adr &&& PAGE_MASK)) / 4096 =
        (a.run x c m).cache.lastPAddr.get c.lastIdx / 4096 ∧
      ((a.run x c m).cache.lastPAddr.get c.lastIdx ||| (adr &&& PAGE_MASK)) % 4096 =
        adr % 4096 ∧
      ((a.run x c m).cache.lastPAddr.get c.lastIdx ||| (adr &&& PAGE_MASK)) &&& PAGE_MASK =
        adr &&& PAGE_MASK := by
  have hs := (Access.run_miss_ok_iff x c m a hm).1 hok
  obtain ⟨v, q, _, _, _⟩ := Access.run_miss_ok_slots x c m a hidx hm hs
  rw [v, q]
  have hlow := land_not_page_mask_low (x.mmu_data_translation MMU_TT_DREAD a.size a.adr).2
  have hlt : (x.mmu_data_translation MMU_TT_DREAD a.size a.adr).2 &&& NOT_PAGE_MASK
      < 2 ^ 32 :=
    lt_of_le_of_lt Nat.and_le_right (by decide)
  refine ⟨land_not_page_mask_low a.adr, hlow, hlt, fun adr => ?_⟩
  have hsum := lor_offset_of_aligned _ adr hlow
  have hmod := hlow
  rw [land_page_mask] at hmod
  rw [hsum, land_page_mask, land_page_mask]
  omega

theorem inserted_entry_page_aligned_witness :
    (((Access.read 4 0x12345678).run (scenarioExtern scenario4K) emptyCache
      []).cache.lastVAddr.get emptyCache.lastIdx &&& PAGE_MASK = 0) :=
  (inserted_entry_page_aligned (scenarioExtern scenario4K) emptyCache []
    (Access.read 4 0x12345678) (by decide) (by decide) (by decide)).1

/-! ## Alignment tests and page masks (C18, C19, C20) -/

theorem u32_pred_pow (k : Nat) (hk : k < 32) : u32_pred (2 ^ k) = 2 ^ k - 1 := by
  have hpos : 0 < 2 ^ k := Nat.pow_pos (by decide)
  have hlt : 2 ^ k < 2 ^ 32 := Nat.pow_lt_pow_right (by decide) hk
  unfold u32_pred
  omega

theorem land_u32_pred_pow (va k : Nat) (hk : k < 32) :
    va &&& u32_pred (2 ^ k) = va % 2 ^ k := by
  rw [u32_pred_pow k hk, Nat.and_pow_two_sub_one_eq_mod]

/-- C18: the accurate build of `mmu_is_translated` is the alignment test
`(va & (size - 1)) != 0` OR the FAST_MMU build, for every `va` and `size`; so
for a power-of-two `size` the two builds agree on every address divisible by
`size`, and the accurate build returns true on every address not divisible by
`size`, inside the fixed windows too. -/
theorem mmu_is_translated_accurate_eq (va size k : Nat) (hk : k < 32)
    (hsize : size = 2 ^ k) :
    mmu_is_translated false va size =
      (decide (va &&& u32_pred size ≠ 0) || mmu_is_translated true va size) ∧
    (va % size = 0 → mmu_is_translated false va size = mmu_is_translated true va size) ∧
    (va % size ≠ 0 → mmu_is_translated false va size = true) := by
  have hal : va &&& u32_pred size = va % size := by
    rw [hsize]; exact land_u32_pred_pow va k hk
  refine ⟨?_, fun h => ?_, fun h => ?_⟩
  · by_cases h : va &&& u32_pred size = 0 <;> simp [mmu_is_translated, h]
  · have h' : va &&& u32_pred size = 0 := by rw [hal]; exact h
    simp [mmu_is_translated, h']
  · have h' : ¬ va &&& u32_pred size = 0 := by rw [hal]; exact h
    simp [mmu_is_translated, h']

theorem mmu_is_translated_accurate_eq_witness :
    0x80000002 % 4 ≠ 0 ∧ mmu_is_translated true 0x80000002 4 = false ∧
      mmu_is_translated false 0x80000002 4 = true :=
  ⟨by decide, by decide,
    (mmu_is_translated_accurate_eq 0x80000002 4 2 (by decide) (by decide)).2.2 (by decide)⟩

/-- C19: for each access width `w` in 1, 2, 4, 8 and every `va`, the alignment
test `(va & (w - 1)) != 0` of `mmu_is_translated` holds exactly when `va` is not
divisible by `w`; for `w = 1` it never holds, and for `w = 2` the tested value
is the `va & 1` of `mmu_instruction_translation`. -/
theorem alignment_test_iff_not_divisible (va w : Nat)
    (mmu_full_lookup : Nat → Nat → Nat × Nat) (rv : Nat)
    (hw : w = 1 ∨ w = 2 ∨ w = 4 ∨ w = 8) :
    (va &&& u32_pred w ≠ 0 ↔ ¬ w ∣ va) ∧
    (mmu_is_translated false va w = true ↔ (¬ w ∣ va ∨ mmu_is_translated true va w = true)) ∧
    va &&& u32_pred 1 = 0 ∧
    va &&& u32_pred 2 = va &&& 1 ∧
    (mmu_instruction_translation mmu_full_lookup va rv =
      { status := MMU_ERROR_BADADDR, rv := rv, lookups := [] } ↔
        va &&& u32_pred 2 ≠ 0) := by
  have hk : ∃ k, k < 32 ∧ w = 2 ^ k := by
    rcases hw with h | h | h | h
    · exact ⟨0, by decide, by rw [h]; rfl⟩
    · exact ⟨1, by decide, by rw [h]; rfl⟩
    · exact ⟨2, by decide, by rw [h]; rfl⟩
    · exact ⟨3, by decide, by rw [h]; rfl⟩
  obtain ⟨k, hk, hwk⟩ := hk
  have hal : va &&& u32_pred w = va % w := by
    rw [hwk]; exact land_u32_pred_pow va k hk
  have h1 : va &&& u32_pred w ≠ 0 ↔ ¬ w ∣ va := by
    rw [hal, Nat.dvd_iff_mod_eq_zero]
  have h2 : va &&& u32_pred 2 = va &&& 1 := by rw [u32_pred_two]
  refine ⟨h1, ?_, ?_, h2, ?_⟩
  · rw [← h1]
    by_cases h : va &&& u32_pred w = 0 <;> simp [mmu_is_translated, h]
  · rw [show u32_pred 1 = 0 from by decide, Nat.and_zero]
  · rw [h2]
    by_cases h : va &&& 1 = 0
    · by_cases hl : fast_reg_lut.getD (va >>> 29) 0 ≠ 0
      · rw [mmu_instruction_translation_bypass _ va rv h hl]
        refine ⟨fun hh => ?_, fun hh => absurd h hh⟩
        have hs : MMU_ERROR_NONE = MMU_ERROR_BADADDR := congrArg ITResult.status hh
        exact absurd hs (by decide)
      · rw [mmu_instruction_translation_lookup _ va rv h hl]
        refine ⟨fun hh => ?_, fun hh => absurd h hh⟩
        have hs := congrArg ITResult.lookups hh
        simp at hs
    · have : mmu_instruction_translation mmu_full_lookup va rv =
          { status := MMU_ERROR_BADADDR, rv := rv, lookups := [] } := by
        simp only [mmu_instruction_translation, h, ne_eq, not_false_eq_true, if_true]
      rw [this]
      exact ⟨fun _ => h, fun _ => rfl⟩

theorem alignment_test_iff_not_divisible_witness :
    (0x8C000006 &&& u32_pred 4 ≠ 0 ↔ ¬ 4 ∣ 0x8C000006) :=
  (alignment_test_iff_not_divisible 0x8C000006 4 (fun _ _ => (MMU_ERROR_NONE, 0)) 0
    (by decide)).1

/-- The mask `2 ^ 32 - 2 ^ sh` splits a 32-bit address into its page and its
offset in the page. -/
theorem high_mask_split (sh va vb : Nat) (hsh : sh ≤ 32) (ha : va < 2 ^ 32)
    (hb : vb < 2 ^ 32) :
    va &&& (2 ^ 32 - 2 ^ sh) = va - va % 2 ^ sh ∧
    (va &&& (2 ^ 32 - 2 ^ sh) = vb &&& (2 ^ 32 - 2 ^ sh) ↔ va / 2 ^ sh = vb / 2 ^ sh) ∧
    (va &&& (2 ^ 32 - 2 ^ sh)) ||| (va &&& (2 ^ sh - 1)) = va := by
  have hpos : 0 < 2 ^ sh := Nat.pow_pos (by decide)
  rw [land_high_mask sh va hsh ha, land_high_mask sh vb hsh hb,
    Nat.and_pow_two_sub_one_eq_mod]
  have hdm := Nat.div_add_mod va (2 ^ sh)
  refine ⟨?_, ?_, ?_⟩
  · rw [Nat.mul_comm] at hdm
    omega
  · exact Nat.mul_left_inj (Nat.pos_iff_ne_zero.1 hpos)
  · rw [Nat.mul_comm, ← Nat.mul_add_lt_is_or (Nat.mod_lt va hpos)]
    exact hdm

/-- C20: for the size classes 0, 1, 2, 3 with pages of `2 ^ sh` bytes, `sh` =
10, 12, 16, 20, the entry `mmu_mask[k]` is `2 ^ 32 - 2 ^ sh`; for 32-bit
addresses, `va & mmu_mask[k]` is `va - va mod 2 ^ sh`, two addresses have the
same masked value exactly when they lie on the same page, and `va` is
`(va & mmu_mask[k]) | (va & ~mmu_mask[k])`. -/
theorem mmu_mask_page (k sh va vb : Nat)
    (hk : (k, sh) ∈ [(0, 10), (1, 12), (2, 16), (3, 20)])
    (ha : va < 2 ^ 32) (hb : vb < 2 ^ 32) :
    mmu_mask.getD k 0 = 2 ^ 32 - 2 ^ sh ∧
    va &&& mmu_mask.getD k 0 = va - va % 2 ^ sh ∧
    (va &&& mmu_mask.getD k 0 = vb &&& mmu_mask.getD k 0 ↔ va / 2 ^ sh = vb / 2 ^ sh) ∧
    (va &&& mmu_mask.getD k 0) ||| (va &&& u32_not (mmu_mask.getD k 0)) = va := by
  have hcases : (k = 0 ∧ sh = 10) ∨ (k = 1 ∧ sh = 12) ∨ (k = 2 ∧ sh = 16) ∨
      (k = 3 ∧ sh = 20) := by
    simpa using hk
  have hmask : mmu_mask.getD k 0 = 2 ^ 32 - 2 ^ sh ∧
      u32_not (mmu_mask.getD k 0) = 2 ^ sh - 1 ∧ sh ≤ 32 := by
    rcases hcases with ⟨h1, h2⟩ | ⟨h1, h2⟩ | ⟨h1, h2⟩ | ⟨h1, h2⟩ <;> subst h1 <;> subst h2 <;>
      decide
  obtain ⟨hm, hn, hsh⟩ := hmask
  rw [hn, hm]
  exact ⟨rfl, high_mask_split sh va vb hsh ha hb⟩

theorem mmu_mask_page_witness :
    mmu_mask.getD 2 0 = 2 ^ 32 - 2 ^ 16 ∧
    0x1234ABCD &&& mmu_mask.getD 2 0 = 0x1234ABCD - 0x1234ABCD % 2 ^ 16 ∧
    (0x1234ABCD &&& mmu_mask.getD 2 0 = 0x12340010 &&& mmu_mask.getD 2 0 ↔
      0x1234ABCD / 2 ^ 16 = 0x12340010 / 2 ^ 16) ∧
    (0x1234ABCD &&& mmu_mask.getD 2 0) ||| (0x1234ABCD &&& u32_not (mmu_mask.getD 2 0)) =
      0x1234ABCD :=
  mmu_mask_page 2 16 0x1234ABCD 0x12340010 (by decide) (by norm_num) (by norm_num)

/-! ## Mode flag, frame and index invariant (C21, C22, C23, C29) -/

/-- C21: `mmu_enabled()` is true exactly when `config::FullMMU` is set and the
field `AT` of `CCN_MMUCR` is 1; with `FullMMU` off it is false whatever `AT`
holds. -/
theorem mmu_enabled_iff (FullMMU : Bool) (AT : Nat) :
    (mmu_enabled FullMMU AT = true ↔ (FullMMU = true ∧ AT = 1)) ∧
    mmu_enabled false AT = false := by
  simp [mmu_enabled]

theorem runAll_lastIdx_lt {M : Type} (x : Extern M) (l : List Access) (c : MMUCache) (m : M)
    (hidx : c.lastIdx < 2) : (runAll x c m l).1.lastIdx < 2 := by
  induction l generalizing c m with
  | nil => exact hidx
  | cons a l ih => exact ih _ _ (Access.run_lastIdx_lt x c m a hidx)

/-- C22: `mmu_instruction_translation` makes no external call on its
bad-address and bypass paths and gives back `rv` unchanged or set to `va`
(elsewhere its one call is `mmu_full_lookup(va)`); with a translation that is a
function of its arguments, `mmu_ReadMemNoEx` leaves the rest of the machine `m`
as it is, and `mmu_WriteMemNoEx` changes it by the one call of `_vmem_writet` of
a successful write only, so every part `p` of the machine that this memory write
does not touch (the UTLB, the ITLB, `sq_remap`) is unchanged; the cache changes
only by the insertion at `lastIdx` of a resolved miss. The function
`mmu_is_translated` is a function of `va` and `size`. -/
theorem translation_frame {M T : Type} (x : Extern M) (p : M → T)
    (hp : ∀ m size addr data, p (x.vmem_writet m size addr data) = p m)
    (lookup : Nat → Nat → Nat × Nat) (va rv size : Nat) (c : MMUCache) (m : M)
    (adr data : Nat) :
    ((va &&& 1 ≠ 0 ∨ fast_reg_lut.getD (va >>> 29) 0 ≠ 0) →
      (mmu_instruction_translation lookup va rv).lookups = [] ∧
      ((mmu_instruction_translation lookup va rv).rv = rv ∨
        (mmu_instruction_translation lookup va rv).rv = va)) ∧
    (mmu_ReadMemNoEx x size c m adr).mem = m ∧
    p (mmu_WriteMemNoEx x size c m adr data).mem = p m ∧
    ((mmu_WriteMemNoEx x size c m adr data).ret ≠ 0 →
      (mmu_WriteMemNoEx x size c m adr data).mem = m) ∧
    ((mmu_WriteMemNoEx x size c m adr data).ret = 0 →
      ∃ addr, (mmu_WriteMemNoEx x size c m adr data).mem = x.vmem_writet m size addr data ∧
        Event.vmem_write size addr data ∈ (mmu_WriteMemNoEx x size c m adr data).trace) ∧
    (∀ e ∈ (mmu_ReadMemNoEx x size c m adr).trace, ∀ s a d, e ≠ Event.vmem_write s a d) ∧
    ((mmu_ReadMemNoEx x size c m adr).cache = c ∨
      (mmu_ReadMemNoEx x size c m adr).cache =
        { lastVAddr := c.lastVAddr.set c.lastIdx (pageOf adr),
          lastPAddr := c.lastPAddr.set c.lastIdx
            ((x.mmu_data_translation MMU_TT_DREAD size adr).2 &&& NOT_PAGE_MASK),
          lastIdx := c.lastIdx ^^^ 1 }) ∧
    ((mmu_WriteMemNoEx x size c m adr data).cache = c ∨
      (mmu_WriteMemNoEx x size c m adr data).cache =
        { lastVAddr := c.lastVAddr.set c.lastIdx (pageOf adr),
          lastPAddr := c.lastPAddr.set c.lastIdx
            ((x.mmu_data_translation MMU_TT_DREAD size adr).2 &&& NOT_PAGE_MASK),
          lastIdx := c.lastIdx ^^^ 1 }) := by
  refine ⟨?_, ?_⟩
  · intro h
    by_cases hodd : va &&& 1 = 0
    · have hl : fast_reg_lut.getD (va >>> 29) 0 ≠ 0 := by
        rcases h with h | h
        · exact absurd hodd h
        · exact h
      rw [mmu_instruction_translation_bypass lookup va rv hodd hl]
      exact ⟨rfl, Or.inr rfl⟩
    · simp only [mmu_instruction_translation, hodd, ne_eq, not_false_eq_true, if_true,
        true_or, and_self]
  · by_cases h0 : c.lastVAddr.get 0 = adr &&& NOT_PAGE_MASK
    · simp [mmu_ReadMemNoEx, mmu_WriteMemNoEx, h0, hp]
    · by_cases h1 : c.lastVAddr.get 1 = adr &&& NOT_PAGE_MASK
      · simp [mmu_ReadMemNoEx, mmu_WriteMemNoEx, h0, h1, hp]
      · by_cases hs : (x.mmu_data_translation MMU_TT_DREAD size adr).1 = MMU_ERROR_NONE
        · simp [mmu_ReadMemNoEx, mmu_WriteMemNoEx, h0, h1, hs, hp, pageOf]
        · simp [mmu_ReadMemNoEx, mmu_WriteMemNoEx, h0, h1, hs, hp]

theorem translation_frame_witness :
    (mmu_WriteMemNoEx (tableExtern scenario4K) 4 emptyCache ([], scenario4K.utlb)
      0x12345000 7).mem.2 = scenario4K.utlb :=
  (translation_frame (tableExtern scenario4K) Prod.snd (fun _ _ _ _ => rfl)
    (fun _ _ => (MMU_ERROR_TLB_MISS, 0)) 0x8C000000 0 4 emptyCache ([], scenario4K.utlb)
    0x12345000 7).2.2.1

/-- C23: if `lastIdx` is 0 or 1 before a call of `mmu_ReadMemNoEx` or
`mmu_WriteMemNoEx`, it is 0 or 1 after the call: it is `lastIdx ^ 1` after a
resolved miss and unchanged otherwise; so it is 0 or 1 after every sequence of
calls, and the assignments at `lastVAddr[lastIdx]` and `lastPAddr[lastIdx]` hit
an element of the two-element arrays. -/
theorem lastIdx_invariant {M : Type} (x : Extern M) (size : Nat) (c : MMUCache) (m : M)
    (adr data : Nat) (hidx : c.lastIdx < 2) :
    (mmu_ReadMemNoEx x size c m adr).cache.lastIdx < 2 ∧
    (mmu_WriteMemNoEx x size c m adr data).cache.lastIdx < 2 ∧
    ((mmu_ReadMemNoEx x size c m adr).cache.lastIdx =
      if isMiss c adr = true ∧ (mmu_ReadMemNoEx x size c m adr).fault = false
      then c.lastIdx ^^^ 1 else c.lastIdx) ∧
    ((mmu_WriteMemNoEx x size c m adr data).cache.lastIdx =
      if isMiss c adr = true ∧ (mmu_WriteMemNoEx x size c m adr data).ret = 0
      then c.lastIdx ^^^ 1 else c.lastIdx) ∧
    (∀ l, (runAll x c m l).1.lastIdx < 2) ∧
    (∀ (a : Arr2) (v : Nat), (a.set c.lastIdx v).get c.lastIdx = v) := by
  refine ⟨Access.run_lastIdx_lt x c m (Access.read size adr) hidx,
    Access.run_lastIdx_lt x c m (Access.write size adr data) hidx, ?_, ?_,
    fun l => runAll_lastIdx_lt x l c m hidx, fun a v => Arr2.get_set_same a _ v hidx⟩
  · by_cases h0 : c.lastVAddr.get 0 = adr &&& NOT_PAGE_MASK
    · simp [mmu_ReadMemNoEx, h0, isMiss, pageOf]
    · by_cases h1 : c.lastVAddr.get 1 = adr &&& NOT_PAGE_MASK
      · simp [mmu_ReadMemNoEx, h0, h1, isMiss, pageOf]
      · by_cases hs : (x.mmu_data_translation MMU_TT_DREAD size adr).1 = MMU_ERROR_NONE
        · simp [mmu_ReadMemNoEx, h0, h1, hs, isMiss, pageOf]
        · simp [mmu_ReadMemNoEx, h0, h1, hs, isMiss, pageOf]
  · by_cases h0 : c.lastVAddr.get 0 = adr &&& NOT_PAGE_MASK
    · simp [mmu_WriteMemNoEx, h0, isMiss, pageOf]
    · by_cases h1 : c.lastVAddr.get 1 = adr &&& NOT_PAGE_MASK
      · simp [mmu_WriteMemNoEx, h0, h1, isMiss, pageOf]
      · by_cases hs : (x.mmu_data_translation MMU_TT_DREAD size adr).1 = MMU_ERROR_NONE
        · simp [mmu_WriteMemNoEx, h0, h1, hs, isMiss, pageOf]
        · simp [mmu_WriteMemNoEx, h0, h1, hs, isMiss, pageOf]

theorem lastIdx_invariant_witness :
    (mmu_ReadMemNoEx (scenarioExtern scenario4K) 4 emptyCache [] 0x12345000).cache.lastIdx
      < 2 :=
  (lastIdx_invariant (scenarioExtern scenario4K) 4 emptyCache [] 0x12345000 0
    (by decide)).1

/-- C29: for every 32-bit `va` the index `va >> 29` is below 8, the length of
`fast_reg_lut`, so the read in `mmu_instruction_translation` and in
`mmu_is_translated` is a read of an element of the table; the table holds 1 at
the indices 4, 5 and 7 and 0 at the other five. -/
theorem fast_reg_lut_index_in_range (va : Nat) (h32 : va < 2 ^ 32) :
    va >>> 29 < fast_reg_lut.length ∧ fast_reg_lut.length = 8 ∧
    fast_reg_lut[va >>> 29]? = some (fast_reg_lut.getD (va >>> 29) 0) ∧
    (∀ i, i < 8 → (fast_reg_lut.getD i 0 = 1 ↔ (i = 4 ∨ i = 5 ∨ i = 7))) ∧
    (∀ i, i < 8 → (fast_reg_lut.getD i 0 = 0 ↔ ¬ (i = 4 ∨ i = 5 ∨ i = 7))) := by
  have hlt : va >>> 29 < 8 := by rw [shift29]; omega
  have hlen : fast_reg_lut.length = 8 := rfl
  refine ⟨by rw [hlen]; exact hlt, hlen, ?_, ?_, ?_⟩
  · generalize va >>> 29 = k at hlt
    interval_cases k <;> rfl
  · intro i hi
    interval_cases i <;> simp [fast_reg_lut]
  · intro i hi
    interval_cases i <;> simp [fast_reg_lut]

theorem fast_reg_lut_index_in_range_witness :
    0xFFFFFFFF >>> 29 < fast_reg_lut.length ∧ fast_reg_lut.length = 8 ∧
    fast_reg_lut[0xFFFFFFFF >>> 29]? = some (fast_reg_lut.getD (0xFFFFFFFF >>> 29) 0) ∧
    (∀ i, i < 8 → (fast_reg_lut.getD i 0 = 1 ↔ (i = 4 ∨ i = 5 ∨ i = 7))) ∧
    (∀ i, i < 8 → (fast_reg_lut.getD i 0 = 0 ↔ ¬ (i = 4 ∨ i = 5 ∨ i = 7))) :=
  fast_reg_lut_index_in_range 0xFFFFFFFF (by norm_num)

/-! ## Device names and direction keys (C24, C25) -/

theorem maple_device_name_index_lt (type : MapleDeviceType) :
    maple_device_name_index type < maple_device_types.length := by
  cases type <;> simp [maple_device_name_index, maple_device_types]

/-- C24: for every index `idx` in `0..11`,
`maple_device_name(maple_device_type_from_index(idx))` is
`maple_device_types[idx]`; for index 12 (`MDT_Dreameye`) and every index outside
`0..12` it is `maple_device_types[0]`, "None"; and for every device type
`maple_device_name` reads `maple_device_types` at an index below 12, the length
of the array. -/
theorem maple_device_round_trip (idx : Int) (type : MapleDeviceType) :
    (0 ≤ idx → idx ≤ 11 →
      maple_device_name (maple_device_type_from_index idx) =
        maple_device_types[idx.toNat]? ∧
      maple_device_types[idx.toNat]?.isSome = true) ∧
    (maple_device_type_from_index 12 = MapleDeviceType.MDT_Dreameye) ∧
    ((idx < 0 ∨ 12 ≤ idx) →
      maple_device_name (maple_device_type_from_index idx) = some "None") ∧
    maple_device_types.length = 12 ∧
    maple_device_name_index type < maple_device_types.length ∧
    (maple_device_name type).isSome = true := by
  refine ⟨?_, rfl, ?_, rfl, maple_device_name_index_lt type, ?_⟩
  · intro h0 h11
    obtain ⟨n, rfl⟩ := Int.eq_ofNat_of_zero_le h0
    have hn : n ≤ 11 := by omega
    interval_cases n <;> decide
  · intro h
    by_cases h12 : idx = 12
    · subst h12; decide
    · have e : maple_device_type_from_index idx = MapleDeviceType.MDT_None := by
        have h1 : idx ≠ 1 := by omega
        have h2 : idx ≠ 2 := by omega
        have h3 : idx ≠ 3 := by omega
        have h4 : idx ≠ 4 := by omega
        have h5 : idx ≠ 5 := by omega
        have h6 : idx ≠ 6 := by omega
        have h7 : idx ≠ 7 := by omega
        have h8 : idx ≠ 8 := by omega
        have h9 : idx ≠ 9 := by omega
        have h10 : idx ≠ 10 := by omega
        have h11 : idx ≠ 11 := by omega
        simp only [maple_device_type_from_index, h1, h2, h3, h4, h5, h6, h7, h8, h9, h10,
          h11, h12, if_false]
      rw [e]; decide
  · cases type <;> simp [maple_device_name, maple_device_name_index, maple_device_types]

theorem maple_device_round_trip_witness :
    maple_device_name (maple_device_type_from_index 9) = maple_device_types[(9 : Int).toNat]? ∧
      maple_device_types[(9 : Int).toNat]?.isSome = true :=
  (maple_device_round_trip 9 MapleDeviceType.MDT_Mouse).1 (by decide) (by decide)

/-- C25: on each of the twenty directional keys `getOppositeDirectionKey` gives
a directional key of the same group, different from the key, and applied twice
it gives the key back; on every other key it gives `EMU_BTN_NONE`. -/
theorem getOppositeDirectionKey_involution (k : DreamcastKey) :
    directionKeys.length = 20 ∧ directionKeys.Nodup ∧
    (k ∈ directionKeys ↔ (directionGroup k).isSome = true) ∧
    (k ∈ directionKeys →
      getOppositeDirectionKey k ∈ directionKeys ∧
      directionGroup (getOppositeDirectionKey k) = directionGroup k ∧
      getOppositeDirectionKey k ≠ k ∧
      getOppositeDirectionKey (getOppositeDirectionKey k) = k) ∧
    (k ∉ directionKeys → getOppositeDirectionKey k = DreamcastKey.EMU_BTN_NONE) := by
  refine ⟨rfl, by decide, ?_, ?_, ?_⟩
  · cases k <;> simp [directionKeys, directionGroup]
  · intro hk
    cases k <;> simp [directionKeys] at hk <;>
      simp [getOppositeDirectionKey, directionGroup, directionKeys]
  · intro hk
    cases k <;> simp [directionKeys] at hk <;> rfl

theorem getOppositeDirectionKey_involution_witness :
    getOppositeDirectionKey DreamcastKey.DC_AXIS2_LEFT ∈ directionKeys ∧
      directionGroup (getOppositeDirectionKey DreamcastKey.DC_AXIS2_LEFT) =
        directionGroup DreamcastKey.DC_AXIS2_LEFT ∧
      getOppositeDirectionKey DreamcastKey.DC_AXIS2_LEFT ≠ DreamcastKey.DC_AXIS2_LEFT ∧
      getOppositeDirectionKey (getOppositeDirectionKey DreamcastKey.DC_AXIS2_LEFT) =
        DreamcastKey.DC_AXIS2_LEFT :=
  (getOppositeDirectionKey_involution DreamcastKey.DC_AXIS2_LEFT).2.2.2.1 (by decide)

/-! ## Save states, settings and mouse buttons (C26, C27, C28) -/

theorem gui_stop_game_trace (env : GuiEnv) (g : Gui) (message : String) :
    ∃ rest, (gui_stop_game env g message).trace = g.trace ++ rest := by
  unfold gui_stop_game
  cases env.commandLineStart <;> cases message.isEmpty <;>
    simp [Gui.call, gui_setState, gui_error]

theorem stateBlock_trace (env : GuiEnv) (g : Gui) (stateCall : GuiEvent)
    (state_throws : Option String) :
    ∃ rest, (stateBlock env g stateCall state_throws).trace =
      g.trace ++ GuiEvent.emu_stop :: rest := by
  unfold stateBlock
  cases h1 : env.stop_throws with
  | some what =>
    obtain ⟨r, hr⟩ := gui_stop_game_trace env (g.call GuiEvent.emu_stop) what
    refine ⟨r, ?_⟩
    show (gui_stop_game env (g.call GuiEvent.emu_stop) what).trace = _
    rw [hr]; simp [Gui.call]
  | none =>
    cases h2 : state_throws with
    | some what =>
      obtain ⟨r, hr⟩ := gui_stop_game_trace env
        ((g.call GuiEvent.emu_stop).call stateCall) what
      refine ⟨stateCall :: r, ?_⟩
      show (gui_stop_game env ((g.call GuiEvent.emu_stop).call stateCall) what).trace = _
      rw [hr]; simp [Gui.call]
    | none =>
      cases h3 : env.start_throws with
      | some what =>
        obtain ⟨r, hr⟩ := gui_stop_game_trace env
          (((g.call GuiEvent.emu_stop).call stateCall).call GuiEvent.emu_start) what
        refine ⟨stateCall :: GuiEvent.emu_start :: r, ?_⟩
        show (gui_stop_game env
          (((g.call GuiEvent.emu_stop).call stateCall).call GuiEvent.emu_start) what).trace = _
        rw [hr]; simp [Gui.call]
      | none => exact ⟨[stateCall, GuiEvent.emu_start], by simp [Gui.call]⟩

/-- C26: `savestateAllowed()` holds exactly when the content path is not empty,
the session is not online and the game is not a Naomi multiboard game; unless
`gui_state` is `Closed` and `savestateAllowed()` holds, `gui_loadState` and
`gui_saveState` change nothing: no external call is made (the emulator is not
stopped, no state loaded or saved) and `gui_state` is as before. When the guard
holds, the emulator is stopped first. -/
theorem savestate_guard (env : GuiEnv) (g : Gui) :
    (savestateAllowed env = true ↔
      (env.content_path.isEmpty = false ∧ env.network_online = false ∧
        env.naomi_multiboard = false)) ∧
    (¬ (g.gui_state = GuiState.Closed ∧ savestateAllowed env = true) →
      gui_loadState env g = g ∧ gui_saveState env g = g) ∧
    ((g.gui_state = GuiState.Closed ∧ savestateAllowed env = true) →
      (∃ rest, (gui_loadState env g).trace = g.trace ++ GuiEvent.emu_stop :: rest) ∧
      (∃ rest, (gui_saveState env g).trace = g.trace ++ GuiEvent.emu_stop :: rest)) := by
  refine ⟨by simp [savestateAllowed, and_assoc], fun h => ?_, fun h => ?_⟩
  · simp only [gui_loadState, gui_saveState, h, if_false, and_self]
  · simp only [gui_loadState, gui_saveState, h, and_self, if_true]
    exact ⟨stateBlock_trace _ _ _ _, stateBlock_trace _ _ _ _⟩

theorem savestate_guard_witness :
    gui_loadState guiEnvOnline guiClosed = guiClosed ∧
      gui_saveState guiEnvOnline guiClosed = guiClosed :=
  (savestate_guard guiEnvOnline guiClosed).2.1 (by decide)

/-- C27: `gui_open_settings` as a step on `gui_state`: from `Commands` to
`Closed`; from `VJoyEdit` to `VJoyEditCommands`; from `Closed`, when the machine
is not a Naomi slave, no network session is active and `emu.stop()` does not
throw, to `Commands`; from `Main`, `Settings`, `Onboarding`, `SelectDisk`,
`Loading`, `NetworkStart`, `Cheats` and `VJoyEditCommands` to the same state.
Called twice from `Closed` under those conditions it ends in `Closed`. -/
theorem gui_open_settings_step (env : GuiEnv) (g : Gui) :
    (g.gui_state = GuiState.Commands →
      (gui_open_settings env g).gui_state = GuiState.Closed) ∧
    (g.gui_state = GuiState.VJoyEdit →
      (gui_open_settings env g).gui_state = GuiState.VJoyEditCommands) ∧
    (g.gui_state = GuiState.Closed → env.naomi_slave = false → env.ggpo_active = false →
      env.stop_throws = none →
      (gui_open_settings env g).gui_state = GuiState.Commands ∧
      (gui_open_settings env (gui_open_settings env g)).gui_state = GuiState.Closed) ∧
    (g.gui_state ∈ [GuiState.Main, GuiState.Settings, GuiState.Onboarding,
        GuiState.SelectDisk, GuiState.Loading, GuiState.NetworkStart, GuiState.Cheats,
        GuiState.VJoyEditCommands] →
      (gui_open_settings env g).gui_state = g.gui_state) := by
  have hcmd : ∀ g' : Gui, g'.gui_state = GuiState.Commands →
      (gui_open_settings env g').gui_state = GuiState.Closed := by
    intro g' h
    simp [gui_open_settings, h, gui_setState, Gui.call]
  refine ⟨hcmd g, ?_, ?_, ?_⟩
  · intro h
    simp [gui_open_settings, h, gui_setState]
  · intro h hs hg ht
    have h1 : (gui_open_settings env g).gui_state = GuiState.Commands := by
      simp [gui_open_settings, h, hs, hg, ht, gui_setState, Gui.call]
    exact ⟨h1, hcmd _ h1⟩
  · intro h
    simp only [List.mem_cons, List.mem_singleton, List.not_mem_nil, or_false] at h
    rcases h with h | h | h | h | h | h | h | h <;>
      simp [gui_open_settings, h, Gui.call]

theorem gui_open_settings_step_witness :
    (gui_open_settings guiEnvLocal guiClosed).gui_state = GuiState.Commands ∧
      (gui_open_settings guiEnvLocal (gui_open_settings guiEnvLocal guiClosed)).gui_state =
        GuiState.Closed :=
  (gui_open_settings_step guiEnvLocal guiClosed).2.2.1 (by decide) (by decide) (by decide)
    (by decide)

theorem one_shift_mod (b : Nat) (hb : b < 32) : (1 <<< b) % 2 ^ 32 = 2 ^ b := by
  rw [Nat.shiftLeft_eq, Nat.one_mul]
  exact Nat.mod_eq_of_lt (Nat.pow_lt_pow_right (by decide) hb)

theorem press_testBit (mb b i : Nat) (hb : b < 32) :
    (gui_set_mouse_button mb b true).testBit i = (mb.testBit i || decide (b = i)) := by
  simp only [gui_set_mouse_button, if_true, one_shift_mod b hb, Nat.testBit_or,
    Nat.testBit_two_pow]

theorem release_testBit (mb b i : Nat) (hmb : mb < 2 ^ 32) (hb : b < 32) :
    (gui_set_mouse_button mb b false).testBit i = (mb.testBit i && !decide (b = i)) := by
  have hlt : 2 ^ b < 2 ^ 32 := Nat.pow_lt_pow_right (by decide) hb
  have hn : u32_not (2 ^ b) = 2 ^ 32 - (2 ^ b + 1) := by
    unfold u32_not
    rw [Nat.mod_eq_of_lt hlt]
    omega
  simp only [gui_set_mouse_button, Bool.false_eq_true, if_false, one_shift_mod b hb, hn,
    Nat.testBit_and, Nat.testBit_two_pow_sub_succ hlt, Nat.testBit_two_pow]
  by_cases hi : i < 32
  · simp [hi]
  · simp [hi, testBit_high_false hmb (by omega : 32 ≤ i)]

/-- C28: for a 32-bit `mouseButtons` and a button `b` in `0..31`,
`gui_set_mouse_button(b, true)` sets bit `b` and `gui_set_mouse_button(b,
false)` clears it, both leaving every other bit as it is and the value within
32 bits; releasing after pressing a button that was up gives the previous
value, and each call repeated gives the same value as made once. -/
theorem gui_set_mouse_button_bit (mb b : Nat) (hmb : mb < 2 ^ 32) (hb : b < 32) :
    (gui_set_mouse_button mb b true).testBit b = true ∧
    (gui_set_mouse_button mb b false).testBit b = false ∧
    (∀ i, i ≠ b →
      (gui_set_mouse_button mb b true).testBit i = mb.testBit i ∧
      (gui_set_mouse_button mb b false).testBit i = mb.testBit i) ∧
    gui_set_mouse_button mb b true < 2 ^ 32 ∧
    gui_set_mouse_button mb b false < 2 ^ 32 ∧
    (mb.testBit b = false →
      gui_set_mouse_button (gui_set_mouse_button mb b true) b false = mb) ∧
    gui_set_mouse_button (gui_set_mouse_button mb b true) b true =
      gui_set_mouse_button mb b true ∧
    gui_set_mouse_button (gui_set_mouse_button mb b false) b false =
      gui_set_mouse_button mb b false := by
  have hp : gui_set_mouse_button mb b true < 2 ^ 32 := by
    simp only [gui_set_mouse_button, if_true, one_shift_mod b hb]
    exact Nat.or_lt_two_pow hmb (Nat.pow_lt_pow_right (by decide) hb)
  have hr : gui_set_mouse_button mb b false < 2 ^ 32 := by
    simp only [gui_set_mouse_button, Bool.false_eq_true, if_false]
    exact lt_of_le_of_lt Nat.and_le_left hmb
  refine ⟨?_, ?_, ?_, hp, hr, ?_, ?_, ?_⟩
  · rw [press_testBit mb b b hb]; simp
  · rw [release_testBit mb b b hmb hb]; simp
  · intro i hi
    have hne : ¬ b = i := fun h => hi h.symm
    rw [press_testBit mb b i hb, release_testBit mb b i hmb hb]
    simp [hne]
  · intro hup
    apply Nat.eq_of_testBit_eq
    intro i
    rw [release_testBit _ b i hp hb, press_testBit mb b i hb]
    by_cases hbi : b = i
    · subst hbi; simp [hup]
    · simp [hbi]
  · apply Nat.eq_of_testBit_eq
    intro i
    rw [press_testBit _ b i hb, press_testBit mb b i hb]
    simp [Bool.or_assoc]
  · apply Nat.eq_of_testBit_eq
    intro i
    rw [release_testBit _ b i hr hb, release_testBit mb b i hmb hb]
    simp [Bool.and_assoc]

theorem gui_set_mouse_button_bit_witness :
    (gui_set_mouse_button 5 31 true).testBit 31 = true ∧
      (gui_set_mouse_button 5 31 false).testBit 31 = false :=
  ⟨(gui_set_mouse_button_bit 5 31 (by norm_num) (by decide)).1,
    (gui_set_mouse_button_bit 5 31 (by norm_num) (by decide)).2.1⟩

end Flycast
